import Mathlib

/-!
# NAU7802 scale driver: a shallow embedding

The driver of `SparkFun_Qwiic_Scale_NAU7802_Arduino_Library.cpp` is embedded as
state-passing functions over a `World`: the device on the two-wire bus, the
buffers of the `TwoWire` transport, a millisecond clock and a log of the bus
transactions and delays the driver performed.

* machine integers are `Nat` with explicit reductions (`% 256`, `% 2 ^ 32`);
* `float` is IEEE-754 binary32 (`F32`), with round-to-nearest-even;
* the `while (1)` loops take a fuel argument and report `Fault.outOfFuel`
  when it is exhausted, so that termination is a theorem and not a convention.
-/

namespace NAU7802Driver

/-! ## binary32 floating point -/

/-- An IEEE-754 binary32 value: not-a-number, a signed infinity, or the finite
value `(-1)^neg * m * 2^e`. Zero is `fin neg 0 e`. -/
inductive F32 where
  | nan : F32
  | inf (neg : Bool) : F32
  | fin (neg : Bool) (m : Nat) (e : Int) : F32
deriving DecidableEq, Repr

namespace F32

/-- Nearest integer to `num / den`, ties to the even integer. -/
def roundNearestEven (num den : Nat) : Nat :=
  let q := num / den
  let r := num % den
  if 2 * r < den then q
  else if den < 2 * r then q + 1
  else if q % 2 = 0 then q else q + 1

/-- Auxiliary for `log2`: binary logarithm by repeated halving, at most `fuel` halvings. -/
def log2Aux : Nat → Nat → Nat
  | 0, _ => 0
  | fuel + 1, n => if n < 2 then 0 else log2Aux fuel (n / 2) + 1

/-- Position of the leading bit of `n` (`⌊log₂ n⌋`, and 0 for `n = 0`). -/
def log2 (n : Nat) : Nat := log2Aux n n

/-- Whether `2^e ≤ num / den`. -/
def geTwoPow (num den : Nat) (e : Int) : Bool :=
  if 0 ≤ e then decide (den * 2 ^ e.toNat ≤ num) else decide (den ≤ num * 2 ^ (-e).toNat)

/-- The binary32 value nearest to `(-1)^neg * num / den` (`den ≠ 0`): 24 bits
of significand, exponent of the last place between -149 and 104, overflow to
infinity. -/
def ofRatio (neg : Bool) (num den : Nat) : F32 :=
  if num = 0 then fin neg 0 (-149)
  else
    let l : Int := (log2 num : Int) - (log2 den : Int)
    let lead : Int := if geTwoPow num den l then l else l - 1
    let e : Int := max (lead - 23) (-149)
    let m : Nat :=
      if 0 ≤ e then roundNearestEven num (den * 2 ^ e.toNat)
      else roundNearestEven (num * 2 ^ (-e).toNat) den
    let m1 : Nat := if m = 2 ^ 24 then 2 ^ 23 else m
    let e1 : Int := if m = 2 ^ 24 then e + 1 else e
    if 104 < e1 then inf neg else fin neg m1 e1

/-- Conversion of an unsigned integer to binary32, as in a C++ cast. -/
def ofNat (n : Nat) : F32 := ofRatio false n 1

/-- Whether the value is a not-a-number. -/
def isNaN : F32 → Bool
  | nan => true
  | _ => false

/-- Whether the value is a zero, of either sign. -/
def isZero : F32 → Bool
  | fin _ 0 _ => true
  | _ => false

/-- Whether the sign bit is set. -/
def signBit : F32 → Bool
  | nan => false
  | inf s => s
  | fin s _ _ => s

/-- Negation. -/
def neg : F32 → F32
  | nan => nan
  | inf s => inf (!s)
  | fin s m e => fin (!s) m e

/-- IEEE-754 division, rounded to nearest even. -/
def div : F32 → F32 → F32
  | nan, _ => nan
  | _, nan => nan
  | inf _, inf _ => nan
  | inf s, fin t _ _ => inf (xor s t)
  | fin s _ _, inf t => fin (xor s t) 0 (-149)
  | fin s m e, fin t n f =>
    if n = 0 then (if m = 0 then nan else inf (xor s t))
    else if f ≤ e then ofRatio (xor s t) (m * 2 ^ (e - f).toNat) n
    else ofRatio (xor s t) m (n * 2 ^ (f - e).toNat)

end F32

/-! ## The two-wire bus, the clock and the log -/

/-- What the driver did to the outside world: a bus transmission with the bytes
it carried and the status `endTransmission` returned (0 is an acknowledge), a
read request with the bytes the device delivered, or a delay. -/
inductive Event where
  | transmit (payload : List Nat) (status : Nat) : Event
  | request (quantity : Nat) (received : List Nat) : Event
  | delay (ms : Nat) : Event
deriving DecidableEq, Repr

/-- The device at `_deviceAddress`, as a state machine seen from the bus master:
how it answers a transmission (status, 0 = acknowledged), which bytes it
delivers when asked for `quantity` bytes, and how many milliseconds a bus
transaction takes. -/
structure Device (σ : Type) where
  transmit : σ → List Nat → Nat × σ
  request : σ → Nat → List Nat × σ
  latency : σ → Nat

/-- Everything outside the driver object: the device, the transmit and receive
buffers of the `TwoWire` port, the millisecond clock and the log. -/
structure World (σ : Type) where
  dev : σ
  txBuffer : List Nat
  rxBuffer : List Nat
  clock : Nat
  log : List Event

namespace TwoWire

variable {σ : Type}

/-- The port call `beginTransmission(address)`: start queueing bytes. -/
def beginTransmission (w : World σ) : World σ :=
  { w with txBuffer := [] }

/-- The port call `write(byte)`: queue one byte. -/
def write (b : Nat) (w : World σ) : World σ :=
  { w with txBuffer := w.txBuffer ++ [b % 256] }

/-- The port call `endTransmission()`: send the queued bytes, return the status. -/
def endTransmission (d : Device σ) (w : World σ) : Nat × World σ :=
  let r := d.transmit w.dev w.txBuffer
  (r.1, { w with dev := r.2, txBuffer := [], clock := w.clock + d.latency w.dev,
                 log := w.log ++ [Event.transmit w.txBuffer r.1] })

/-- The port call `requestFrom(address, quantity)`: the receive buffer is
replaced by the (at most `quantity`) bytes the device delivers. -/
def requestFrom (d : Device σ) (quantity : Nat) (w : World σ) : World σ :=
  let r := d.request w.dev quantity
  { w with dev := r.2, rxBuffer := (r.1.take quantity).map (fun b => b % 256),
           clock := w.clock + d.latency w.dev,
           log := w.log ++ [Event.request quantity r.1] }

/-- The port call `available()`: number of bytes left in the receive buffer. -/
def available (w : World σ) : Nat := w.rxBuffer.length

/-- The port call `read()`: next received byte, or -1 when there is none. -/
def read (w : World σ) : Int × World σ :=
  match w.rxBuffer with
  | [] => (-1, w)
  | b :: rest => ((b : Int), { w with rxBuffer := rest })

end TwoWire

variable {σ : Type}

/-- Arduino `delay(ms)`. -/
def delay (ms : Nat) (w : World σ) : World σ :=
  { w with clock := w.clock + ms, log := w.log ++ [Event.delay ms] }

/-- Arduino `millis()`, a 32-bit counter. -/
def millis (w : World σ) : Nat := w.clock % 2 ^ 32

/-- Conversion of an `int` to `uint8_t`. -/
def toUInt8 (i : Int) : Nat := (i % 256).toNat

/-- Conversion of an `int` to `uint32_t`. -/
def toUInt32 (i : Int) : Nat := (i % 2 ^ 32).toNat

/-- The constants of the library header, which is not part of the sources at
hand: register addresses, bit numbers and the option codes `begin` uses. The
driver is parameterised by them. -/
structure RegisterMap where
  NAU7802_PU_CTRL : Nat
  NAU7802_CTRL1 : Nat
  NAU7802_CTRL2 : Nat
  NAU7802_ADCO_B2 : Nat
  NAU7802_ADC : Nat
  NAU7802_DEVICE_REV : Nat
  NAU7802_PU_CTRL_RR : Nat
  NAU7802_PU_CTRL_PUD : Nat
  NAU7802_PU_CTRL_PUA : Nat
  NAU7802_PU_CTRL_PUR : Nat
  NAU7802_PU_CTRL_CR : Nat
  NAU7802_PU_CTRL_AVDDS : Nat
  NAU7802_CTRL1_CRP : Nat
  NAU7802_CTRL2_CALS : Nat
  NAU7802_CTRL2_CAL_ERROR : Nat
  NAU7802_CTRL2_CHS : Nat
  NAU7802_LDO_3V3 : Nat
  NAU7802_GAIN_16 : Nat
  NAU7802_SPS_10 : Nat
  NAU7802_CHANNEL_1 : Nat

/-- The register map of the NAU7802 data sheet. -/
def nau7802Map : RegisterMap where
  NAU7802_PU_CTRL := 0x00
  NAU7802_CTRL1 := 0x01
  NAU7802_CTRL2 := 0x02
  NAU7802_ADCO_B2 := 0x12
  NAU7802_ADC := 0x15
  NAU7802_DEVICE_REV := 0x1F
  NAU7802_PU_CTRL_RR := 0
  NAU7802_PU_CTRL_PUD := 1
  NAU7802_PU_CTRL_PUA := 2
  NAU7802_PU_CTRL_PUR := 3
  NAU7802_PU_CTRL_CR := 5
  NAU7802_PU_CTRL_AVDDS := 7
  NAU7802_CTRL1_CRP := 7
  NAU7802_CTRL2_CALS := 2
  NAU7802_CTRL2_CAL_ERROR := 3
  NAU7802_CTRL2_CHS := 7
  NAU7802_LDO_3V3 := 4
  NAU7802_GAIN_16 := 4
  NAU7802_SPS_10 := 0
  NAU7802_CHANNEL_1 := 0

/-- Why a run of the model produced no value: a `while (1)` loop used up its
fuel, or the program divided by zero. -/
inductive Fault where
  | outOfFuel : Fault
  | divisionByZero : Fault
deriving DecidableEq, Repr

/-- The data members of the driver object. -/
structure NAU7802 where
  _zeroOffset : Nat
  _calibrationFactor : F32

namespace NAU7802

/-- The method `isConnected`. -/
def isConnected (d : Device σ) (w : World σ) : Bool × World σ :=
  let w1 := TwoWire.beginTransmission w
  let r := TwoWire.endTransmission d w1
  if r.1 ≠ 0 then (false, r.2) else (true, r.2)

/-- The method `getRegister`; the failure value `-1` is 255 as a `uint8_t`. -/
def getRegister (d : Device σ) (registerAddress : Nat) (w : World σ) : Nat × World σ :=
  let w1 := TwoWire.beginTransmission w
  let w2 := TwoWire.write registerAddress w1
  let r := TwoWire.endTransmission d w2
  if r.1 ≠ 0 then (toUInt8 (-1), r.2)
  else
    let w3 := TwoWire.requestFrom d 1 r.2
    if TwoWire.available w3 ≠ 0 then
      let b := TwoWire.read w3
      (toUInt8 b.1, b.2)
    else (toUInt8 (-1), w3)

/-- The method `setRegister`. -/
def setRegister (d : Device σ) (registerAddress value : Nat) (w : World σ) : Bool × World σ :=
  let w1 := TwoWire.beginTransmission w
  let w2 := TwoWire.write registerAddress w1
  let w3 := TwoWire.write value w2
  let r := TwoWire.endTransmission d w3
  if r.1 ≠ 0 then (false, r.2) else (true, r.2)

/-- The method `setBit`: `value |= (1 << bitNumber)` on a `uint8_t`. -/
def setBit (d : Device σ) (bitNumber registerAddress : Nat) (w : World σ) : Bool × World σ :=
  let r := getRegister d registerAddress w
  let value := (r.1 ||| (1 <<< bitNumber)) % 256
  setRegister d registerAddress value r.2

/-- The method `clearBit`: `value &= ~(1 << bitNumber)` on a `uint8_t`; the low
byte of `~(1 << bitNumber)` is `255 - (1 << bitNumber) % 256`. -/
def clearBit (d : Device σ) (bitNumber registerAddress : Nat) (w : World σ) : Bool × World σ :=
  let r := getRegister d registerAddress w
  let value := r.1 &&& (255 - (1 <<< bitNumber) % 256)
  setRegister d registerAddress value r.2

/-- The method `getBit`: the masked `uint8_t` converted to `bool`. -/
def getBit (d : Device σ) (bitNumber registerAddress : Nat) (w : World σ) : Bool × World σ :=
  let r := getRegister d registerAddress w
  let value := (r.1 &&& (1 <<< bitNumber)) % 256
  (decide (value ≠ 0), r.2)

/-- The method `available`. -/
def available (d : Device σ) (k : RegisterMap) (w : World σ) : Bool × World σ :=
  getBit d k.NAU7802_PU_CTRL_CR k.NAU7802_PU_CTRL w

/-- The `while (1)` loop of `calibrate`, with its `uint16_t counter`. The
result is `true` when the loop is left by `break` and `false` when the method
returns `false` from inside the loop. -/
def calibrateWait (d : Device σ) (k : RegisterMap) :
    Nat → Nat → World σ → Except Fault (Bool × World σ)
  | 0, _, _ => Except.error Fault.outOfFuel
  | fuel + 1, counter, w =>
    let r := getBit d k.NAU7802_CTRL2_CALS k.NAU7802_CTRL2 w
    if r.1 = false then Except.ok (true, r.2)
    else
      let w1 := delay 1 r.2
      if counter > 1000 then Except.ok (false, w1)
      else calibrateWait d k fuel ((counter + 1) % 65536) w1

/-- The method `calibrate`. -/
def calibrate (d : Device σ) (k : RegisterMap) (fuel : Nat) (w : World σ) :
    Except Fault (Bool × World σ) :=
  let w0 := (setBit d k.NAU7802_CTRL2_CALS k.NAU7802_CTRL2 w).2
  match calibrateWait d k fuel 0 w0 with
  | Except.error e => Except.error e
  | Except.ok (false, w1) => Except.ok (false, w1)
  | Except.ok (true, w1) =>
    let r := getBit d k.NAU7802_CTRL2_CAL_ERROR k.NAU7802_CTRL2 w1
    if r.1 = false then Except.ok (true, r.2) else Except.ok (false, r.2)

/-- The method `setSampleRate`. -/
def setSampleRate (d : Device σ) (k : RegisterMap) (rate : Nat) (w : World σ) :
    Bool × World σ :=
  let rate := if rate > 0b111 then 0b111 else rate
  let r := getRegister d k.NAU7802_CTRL2 w
  let value := r.1 &&& 0b10001111
  let value := (value ||| (rate <<< 4)) % 256
  setRegister d k.NAU7802_CTRL2 value r.2

/-- The method `setChannel`. -/
def setChannel (d : Device σ) (k : RegisterMap) (channelNumber : Nat) (w : World σ) :
    Bool × World σ :=
  if channelNumber = k.NAU7802_CHANNEL_1 then
    clearBit d k.NAU7802_CTRL2_CHS k.NAU7802_CTRL2 w
  else setBit d k.NAU7802_CTRL2_CHS k.NAU7802_CTRL2 w

/-- The `while (1)` loop of `powerUp`, with its `uint8_t counter`; the result
is `true` when the loop is left by `break`. -/
def powerUpWait (d : Device σ) (k : RegisterMap) :
    Nat → Nat → World σ → Except Fault (Bool × World σ)
  | 0, _, _ => Except.error Fault.outOfFuel
  | fuel + 1, counter, w =>
    let r := getBit d k.NAU7802_PU_CTRL_PUR k.NAU7802_PU_CTRL w
    if r.1 = true then Except.ok (true, r.2)
    else
      let w1 := delay 1 r.2
      if counter > 100 then Except.ok (false, w1)
      else powerUpWait d k fuel ((counter + 1) % 256) w1

/-- The method `powerUp`. -/
def powerUp (d : Device σ) (k : RegisterMap) (fuel : Nat) (w : World σ) :
    Except Fault (Bool × World σ) :=
  let w1 := (setBit d k.NAU7802_PU_CTRL_PUD k.NAU7802_PU_CTRL w).2
  let w2 := (setBit d k.NAU7802_PU_CTRL_PUA k.NAU7802_PU_CTRL w1).2
  powerUpWait d k fuel 0 w2

/-- The method `powerDown`. -/
def powerDown (d : Device σ) (k : RegisterMap) (w : World σ) : Bool × World σ :=
  let w1 := (clearBit d k.NAU7802_PU_CTRL_PUD k.NAU7802_PU_CTRL w).2
  clearBit d k.NAU7802_PU_CTRL_PUA k.NAU7802_PU_CTRL w1

/-- The method `reset`. -/
def reset (d : Device σ) (k : RegisterMap) (w : World σ) : Bool × World σ :=
  let w1 := (setBit d k.NAU7802_PU_CTRL_RR k.NAU7802_PU_CTRL w).2
  let w2 := delay 1 w1
  clearBit d k.NAU7802_PU_CTRL_RR k.NAU7802_PU_CTRL w2

/-- The method `setLDO`. -/
def setLDO (d : Device σ) (k : RegisterMap) (ldoValue : Nat) (w : World σ) :
    Bool × World σ :=
  let ldoValue := if ldoValue > 0b111 then 0b111 else ldoValue
  let r := getRegister d k.NAU7802_CTRL1 w
  let value := r.1 &&& 0b11000111
  let value := (value ||| (ldoValue <<< 3)) % 256
  let w1 := (setRegister d k.NAU7802_CTRL1 value r.2).2
  setBit d k.NAU7802_PU_CTRL_AVDDS k.NAU7802_PU_CTRL w1

/-- The method `setGain`. -/
def setGain (d : Device σ) (k : RegisterMap) (gainValue : Nat) (w : World σ) :
    Bool × World σ :=
  let gainValue := if gainValue > 0b111 then 0b111 else gainValue
  let r := getRegister d k.NAU7802_CTRL1 w
  let value := r.1 &&& 0b11111000
  let value := (value ||| gainValue) % 256
  setRegister d k.NAU7802_CTRL1 value r.2

/-- The method `getRevisionCode`. -/
def getRevisionCode (d : Device σ) (k : RegisterMap) (w : World σ) : Nat × World σ :=
  let r := getRegister d k.NAU7802_DEVICE_REV w
  (r.1 &&& 0x0F, r.2)

/-- The method `getReading`; `return (false)` is 0 as a `uint32_t`. -/
def getReading (d : Device σ) (k : RegisterMap) (w : World σ) : Nat × World σ :=
  let w1 := TwoWire.beginTransmission w
  let w2 := TwoWire.write k.NAU7802_ADCO_B2 w1
  let r := TwoWire.endTransmission d w2
  if r.1 ≠ 0 then (0, r.2)
  else
    let w3 := TwoWire.requestFrom d 3 r.2
    if TwoWire.available w3 ≠ 0 then
      let b0 := TwoWire.read w3
      let value := (toUInt32 b0.1 <<< 16) % 2 ^ 32
      let b1 := TwoWire.read b0.2
      let value := value ||| (toUInt32 b1.1 <<< 8) % 2 ^ 32
      let b2 := TwoWire.read b1.2
      let value := value ||| toUInt32 b2.1
      (value, b2.2)
    else (0, w3)

/-- The `while (1)` loop of `getAverage`. `total` is an `unsigned long` (32
bits on the Arduino targets), `samplesAquired` a `uint8_t`. The result is
`some total` when the loop is left by `break` and `none` when the method
returns 0 on the timeout. -/
def getAverageLoop (d : Device σ) (k : RegisterMap) (averageAmount startTime : Nat) :
    Nat → Nat → Nat → World σ → Except Fault (Option Nat × World σ)
  | 0, _, _, _ => Except.error Fault.outOfFuel
  | fuel + 1, total, samplesAquired, w =>
    let a := available d k w
    if a.1 = true then
      let r := getReading d k a.2
      let total1 := (total + r.1) % 2 ^ 32
      if samplesAquired = averageAmount then Except.ok (some total1, r.2)
      else if (millis r.2 + 2 ^ 32 - startTime) % 2 ^ 32 > 1000 then Except.ok (none, r.2)
      else getAverageLoop d k averageAmount startTime fuel total1 ((samplesAquired + 1) % 256) r.2
    else if (millis a.2 + 2 ^ 32 - startTime) % 2 ^ 32 > 1000 then Except.ok (none, a.2)
    else getAverageLoop d k averageAmount startTime fuel total samplesAquired a.2

/-- The method `getAverage`. -/
def getAverage (d : Device σ) (k : RegisterMap) (averageAmount fuel : Nat) (w : World σ) :
    Except Fault (Nat × World σ) :=
  let startTime := millis w
  match getAverageLoop d k averageAmount startTime fuel 0 0 w with
  | Except.error e => Except.error e
  | Except.ok (none, w1) => Except.ok (0, w1)
  | Except.ok (some total, w1) =>
    if averageAmount = 0 then Except.error Fault.divisionByZero
    else Except.ok (total / averageAmount, w1)

/-- The method `setZeroOffset`. -/
def setZeroOffset (self : NAU7802) (newZeroOffset : Nat) : NAU7802 :=
  { self with _zeroOffset := newZeroOffset }

/-- The method `getZeroOffset`. -/
def getZeroOffset (self : NAU7802) : Nat := self._zeroOffset

/-- The method `calculateZeroOffset`. -/
def calculateZeroOffset (self : NAU7802) (d : Device σ) (k : RegisterMap)
    (averageAmount fuel : Nat) (w : World σ) : Except Fault (NAU7802 × World σ) :=
  match getAverage d k averageAmount fuel w with
  | Except.error e => Except.error e
  | Except.ok (avg, w1) => Except.ok (setZeroOffset self avg, w1)

/-- The method `setCalibrationFactor`. -/
def setCalibrationFactor (self : NAU7802) (newCalFactor : F32) : NAU7802 :=
  { self with _calibrationFactor := newCalFactor }

/-- The method `getCalibrationFactor`. -/
def getCalibrationFactor (self : NAU7802) : F32 := self._calibrationFactor

/-- The method `calculateCalibrationFactor`; `onScale - _zeroOffset` is a
`uint32_t` subtraction. -/
def calculateCalibrationFactor (self : NAU7802) (d : Device σ) (k : RegisterMap)
    (weightOnScale : F32) (_averageAmount fuel : Nat) (w : World σ) :
    Except Fault (NAU7802 × World σ) :=
  match getAverage d k 8 fuel w with
  | Except.error e => Except.error e
  | Except.ok (onScale, w1) =>
    let newCalFactor :=
      F32.div (F32.ofNat ((onScale + 2 ^ 32 - self._zeroOffset) % 2 ^ 32)) weightOnScale
    Except.ok (setCalibrationFactor self newCalFactor, w1)

/-- The method `getWeight`; `onScale - _zeroOffset` is a `uint32_t`
subtraction, converted to `float` for the division. -/
def getWeight (self : NAU7802) (d : Device σ) (k : RegisterMap)
    (allowNegativeWeights : Bool) (fuel : Nat) (w : World σ) : Except Fault (F32 × World σ) :=
  match getAverage d k 8 fuel w with
  | Except.error e => Except.error e
  | Except.ok (onScale, w1) =>
    let onScale :=
      if allowNegativeWeights = false then
        (if onScale < self._zeroOffset then self._zeroOffset else onScale)
      else onScale
    let weight :=
      F32.div (F32.ofNat ((onScale + 2 ^ 32 - self._zeroOffset) % 2 ^ 32)) self._calibrationFactor
    Except.ok (weight, w1)

/-- The method `setIntPolarityHigh`. -/
def setIntPolarityHigh (d : Device σ) (k : RegisterMap) (w : World σ) : Bool × World σ :=
  clearBit d k.NAU7802_CTRL1_CRP k.NAU7802_CTRL1 w

/-- The method `setIntPolarityLow`. -/
def setIntPolarityLow (d : Device σ) (k : RegisterMap) (w : World σ) : Bool × World σ :=
  setBit d k.NAU7802_CTRL1_CRP k.NAU7802_CTRL1 w

/-- The part of `begin` after the presence check: every step runs, the results
are accumulated with `&=`. -/
def beginSetup (d : Device σ) (k : RegisterMap) (fuel : Nat) (w : World σ) :
    Except Fault (Bool × World σ) :=
  let result := true
  let r1 := reset d k w
  let result := result && r1.1
  match powerUp d k fuel r1.2 with
  | Except.error e => Except.error e
  | Except.ok r2 =>
    let result := result && r2.1
    let r3 := setLDO d k k.NAU7802_LDO_3V3 r2.2
    let result := result && r3.1
    let r4 := setGain d k k.NAU7802_GAIN_16 r3.2
    let result := result && r4.1
    let r5 := setSampleRate d k k.NAU7802_SPS_10 r4.2
    let result := result && r5.1
    let r6 := setRegister d k.NAU7802_ADC 0x30 r5.2
    let result := result && r6.1
    match calibrate d k fuel r6.2 with
    | Except.error e => Except.error e
    | Except.ok r7 =>
      let result := result && r7.1
      Except.ok (result, r7.2)

/-- The method `begin`. -/
def begin (d : Device σ) (k : RegisterMap) (fuel : Nat) (w : World σ) :
    Except Fault (Bool × World σ) :=
  let c1 := isConnected d w
  if c1.1 = false then
    let c2 := isConnected d c1.2
    if c2.1 = false then Except.ok (false, c2.2)
    else beginSetup d k fuel c2.2
  else beginSetup d k fuel c1.2

end NAU7802

/-! ## Devices -/

/-- State of a device that stores what is written: a register file and the
register pointer set by the last transmission. -/
structure Memory where
  regs : Nat → Nat
  pointer : Nat

/-- A device that acknowledges every transmission and stores what is written:
the first byte of a transmission sets the register pointer, the following bytes
are written to consecutive registers, and a read delivers consecutive
registers from the pointer on. Bus transactions take no measurable time. -/
def memoryDevice : Device Memory where
  transmit := fun s payload =>
    match payload with
    | [] => (0, s)
    | a :: vs =>
      (0, { regs := fun i => if a ≤ i ∧ i < a + vs.length then vs.getD (i - a) 0 else s.regs i,
            pointer := a })
  request := fun s quantity =>
    ((List.range quantity).map (fun i => s.regs (s.pointer + i)), s)
  latency := fun _ => 0

/-- A device that never acknowledges (status 2: NACK on the address) and
delivers no data. -/
def absentDevice : Device Unit where
  transmit := fun s _ => (2, s)
  request := fun s _ => ([], s)
  latency := fun _ => 0

/-- A device behind a disturbed bus: `faults` lists the statuses of the next
transmissions, a non-zero one meaning that the transmission is lost before it
reaches the device; once the list is used up every transmission goes through. -/
def faultyDevice (d : Device σ) : Device (List Nat × σ) where
  transmit := fun s payload =>
    match s.1 with
    | [] => ((d.transmit s.2 payload).1, ([], (d.transmit s.2 payload).2))
    | st :: rest =>
      if st ≠ 0 then (st, (rest, s.2))
      else ((d.transmit s.2 payload).1, (rest, (d.transmit s.2 payload).2))
  request := fun s quantity => ((d.request s.2 quantity).1, (s.1, (d.request s.2 quantity).2))
  latency := fun s => d.latency s.2

/-- A world around device state `s`: empty buffers, clock at 0, empty log. -/
def World.init (s : σ) : World σ :=
  { dev := s, txBuffer := [], rxBuffer := [], clock := 0, log := [] }

/-- Number of `delay` calls in a log. -/
def delayCount (log : List Event) : Nat :=
  (log.filter (fun e => match e with | Event.delay _ => true | _ => false)).length

/-- A storing device whose registers all hold `0xA5`. -/
def sampleMemory : Memory := { regs := fun _ => 0xA5, pointer := 0 }

/-- A storing device of the NAU7802 register map with a conversion ready
(`PU_CTRL` = 0x20, the cycle-ready bit) and the 24-bit value `reading` in the
three ADC output registers 0x12..0x14; all other registers hold 0. -/
def readyMemory (reading : Nat) : Memory :=
  { regs := fun i =>
      if i = 0x00 then 0x20
      else if i = 0x12 then reading / 65536 % 256
      else if i = 0x13 then reading / 256 % 256
      else if i = 0x14 then reading % 256
      else 0,
    pointer := 0 }

/-- A storing device in a steady state: the cycle-ready bit of `PU_CTRL` is
set, the three ADC output registers hold the big-endian bytes of `r`, and the
clock shows `c`. -/
def Steady (k : RegisterMap) (r c : Nat) (w : World Memory) : Prop :=
  (w.dev.regs k.NAU7802_PU_CTRL % 256 &&& (1 <<< k.NAU7802_PU_CTRL_CR)) % 256 ≠ 0 ∧
  w.dev.regs k.NAU7802_ADCO_B2 = r / 65536 % 256 ∧
  w.dev.regs (k.NAU7802_ADCO_B2 + 1) = r / 256 % 256 ∧
  w.dev.regs (k.NAU7802_ADCO_B2 + 2) = r % 256 ∧
  w.clock = c

/-- A device that acknowledges every transmission but delivers no data. -/
def silentDevice : Device Unit where
  transmit := fun s _ => (0, s)
  request := fun s _ => ([], s)
  latency := fun _ => 0

/-- The world after a poll of a register bit that does not end the wait: the
register read of `getBit` followed by `delay(1)`. -/
def pollStep (d : Device σ) (bitNumber registerAddress : Nat) (w : World σ) : World σ :=
  delay 1 (NAU7802.getBit d bitNumber registerAddress w).2

/-- The seven setup steps of `begin` as the specification lists them: reset,
powerUp, setLDO, setGain, setSampleRate, the write of 0x30 to the ADC register
and calibrate, each run on the world the previous one left, whatever the
earlier results; the value is the list of the seven results. -/
def setupSteps (d : Device σ) (k : RegisterMap) (fuel : Nat) (w : World σ) :
    Except Fault (List Bool × World σ) :=
  match NAU7802.powerUp d k fuel (NAU7802.reset d k w).2 with
  | Except.error e => Except.error e
  | Except.ok r2 =>
    match NAU7802.calibrate d k fuel
        (NAU7802.setRegister d k.NAU7802_ADC 0x30
          (NAU7802.setSampleRate d k k.NAU7802_SPS_10
            (NAU7802.setGain d k k.NAU7802_GAIN_16
              (NAU7802.setLDO d k k.NAU7802_LDO_3V3 r2.2).2).2).2).2 with
    | Except.error e => Except.error e
    | Except.ok r7 =>
      Except.ok
        ([(NAU7802.reset d k w).1, r2.1,
          (NAU7802.setLDO d k k.NAU7802_LDO_3V3 r2.2).1,
          (NAU7802.setGain d k k.NAU7802_GAIN_16
            (NAU7802.setLDO d k k.NAU7802_LDO_3V3 r2.2).2).1,
          (NAU7802.setSampleRate d k k.NAU7802_SPS_10
            (NAU7802.setGain d k k.NAU7802_GAIN_16
              (NAU7802.setLDO d k k.NAU7802_LDO_3V3 r2.2).2).2).1,
          (NAU7802.setRegister d k.NAU7802_ADC 0x30
            (NAU7802.setSampleRate d k k.NAU7802_SPS_10
              (NAU7802.setGain d k k.NAU7802_GAIN_16
                (NAU7802.setLDO d k k.NAU7802_LDO_3V3 r2.2).2).2).2).1,
          r7.1], r7.2)

/-- A device that acknowledges every transmission and reads back zero from
every register. -/
def zeroDevice : Device Unit where
  transmit := fun s _ => (0, s)
  request := fun s quantity => (List.replicate quantity 0, s)
  latency := fun _ => 0

/-- One pass of the `getAverage` loop body with a conversion ready: the
`available` check followed by `getReading`; the reading and the world left. -/
def sampleStep (d : Device σ) (k : RegisterMap) (w : World σ) : Nat × World σ :=
  NAU7802.getReading d k (NAU7802.available d k w).2

/-- The world after `i` passes of `sampleStep`. -/
def sampleWorld (d : Device σ) (k : RegisterMap) : Nat → World σ → World σ
  | 0, w => w
  | i + 1, w => sampleWorld d k i (sampleStep d k w).2

/-- The reading taken in pass number `i` (counting from 0). -/
def sampleReading (d : Device σ) (k : RegisterMap) (i : Nat) (w : World σ) : Nat :=
  (sampleStep d k (sampleWorld d k i w)).1

/-- The sum of the readings of the first `m` passes, as a natural number. -/
def sampleSum (d : Device σ) (k : RegisterMap) : Nat → World σ → Nat
  | 0, _ => 0
  | m + 1, w => (sampleStep d k w).1 + sampleSum d k m (sampleStep d k w).2

/-- Number of transmissions of the ADC output register address in a log: one
per call of `getReading`. -/
def readingCount (k : RegisterMap) (log : List Event) : Nat :=
  (log.filter (fun e =>
    match e with
    | Event.transmit payload _ => decide (payload = [k.NAU7802_ADCO_B2 % 256])
    | _ => false)).length

/-- The loop of `getAverage` with an accumulator of unbounded width: the same
loop with `total += getReading()` computed in the natural numbers. -/
def getAverageLoopWide (d : Device σ) (k : RegisterMap) (averageAmount startTime : Nat) :
    Nat → Nat → Nat → World σ → Except Fault (Option Nat × World σ)
  | 0, _, _, _ => Except.error Fault.outOfFuel
  | fuel + 1, total, samplesAquired, w =>
    let a := NAU7802.available d k w
    if a.1 = true then
      let r := NAU7802.getReading d k a.2
      let total1 := total + r.1
      if samplesAquired = averageAmount then Except.ok (some total1, r.2)
      else if (millis r.2 + 2 ^ 32 - startTime) % 2 ^ 32 > 1000 then Except.ok (none, r.2)
      else getAverageLoopWide d k averageAmount startTime fuel total1
        ((samplesAquired + 1) % 256) r.2
    else if (millis a.2 + 2 ^ 32 - startTime) % 2 ^ 32 > 1000 then Except.ok (none, a.2)
    else getAverageLoopWide d k averageAmount startTime fuel total samplesAquired a.2

/-- The values the unbounded accumulator takes in the loop of `getAverage`, one
per reading added, in order. -/
def runningTotals (d : Device σ) (k : RegisterMap) (averageAmount startTime : Nat) :
    Nat → Nat → Nat → World σ → List Nat
  | 0, _, _, _ => []
  | fuel + 1, total, samplesAquired, w =>
    let a := NAU7802.available d k w
    if a.1 = true then
      let r := NAU7802.getReading d k a.2
      let total1 := total + r.1
      if samplesAquired = averageAmount then [total1]
      else if (millis r.2 + 2 ^ 32 - startTime) % 2 ^ 32 > 1000 then [total1]
      else total1 :: runningTotals d k averageAmount startTime fuel total1
        ((samplesAquired + 1) % 256) r.2
    else if (millis a.2 + 2 ^ 32 - startTime) % 2 ^ 32 > 1000 then []
    else runningTotals d k averageAmount startTime fuel total samplesAquired a.2

/-- A storing device whose power-ready bit (bit 3 of register 0x00) comes up
late: the first component counts the register reads still to be made before a
read of register 0x00 shows the bit set. -/
def poweringDevice : Device (Nat × Memory) where
  transmit := fun s payload =>
    ((memoryDevice.transmit s.2 payload).1, (s.1, (memoryDevice.transmit s.2 payload).2))
  request := fun s quantity =>
    if s.1 = 0 then
      ((List.range quantity).map (fun i =>
        if s.2.pointer + i = 0 then s.2.regs 0 ||| 0x08 else s.2.regs (s.2.pointer + i)), s)
    else ((memoryDevice.request s.2 quantity).1, (s.1 - 1, s.2))
  latency := fun _ => 0

/-! ## Register access on the storing device -/

open NAU7802

theorem toUInt8_byte (b : Nat) : toUInt8 ((b : Int) % 256) = b % 256 := by
  unfold toUInt8
  omega

theorem memory_transmit_address (s : Memory) (a : Nat) :
    memoryDevice.transmit s [a] = (0, { regs := s.regs, pointer := a }) := by
  have hf : (fun i => if a ≤ i ∧ i < a then 0 else s.regs i) = s.regs := by
    funext i
    have h2 : ¬ (a ≤ i ∧ i < a) := by omega
    simp [h2]
  simp [memoryDevice, hf]

theorem memory_transmit_write (s : Memory) (a v : Nat) :
    memoryDevice.transmit s [a, v] = (0, { regs := Function.update s.regs a v, pointer := a }) := by
  have hf : (fun i => if a ≤ i ∧ i < a + 1 then [v][i - a]?.getD 0 else s.regs i)
      = Function.update s.regs a v := by
    funext i
    by_cases h : i = a
    · subst h; simp
    · have h2 : ¬ (a ≤ i ∧ i < a + 1) := by omega
      simp [h2, Function.update, h]
  simp [memoryDevice, hf]

theorem memory_request_one (s : Memory) :
    memoryDevice.request s 1 = ([s.regs s.pointer], s) := by
  simp [memoryDevice, List.range_succ]

theorem memory_latency (s : Memory) : memoryDevice.latency s = 0 := rfl

theorem getRegister_memory (a : Nat) (w : World Memory) (ha : a < 256) :
    getRegister memoryDevice a w =
      (w.dev.regs a % 256,
        { dev := { regs := w.dev.regs, pointer := a }, txBuffer := [], rxBuffer := [],
          clock := w.clock,
          log := w.log ++ [Event.transmit [a] 0, Event.request 1 [w.dev.regs a]] }) := by
  simp [getRegister, TwoWire.beginTransmission, TwoWire.write, TwoWire.endTransmission,
    TwoWire.requestFrom, TwoWire.available, TwoWire.read, memory_transmit_address,
    memory_request_one, memory_latency, Nat.mod_eq_of_lt ha, toUInt8_byte]

theorem setRegister_memory (a v : Nat) (w : World Memory) (ha : a < 256) (hv : v < 256) :
    setRegister memoryDevice a v w =
      (true,
        { dev := { regs := Function.update w.dev.regs a v, pointer := a }, txBuffer := [],
          rxBuffer := w.rxBuffer, clock := w.clock,
          log := w.log ++ [Event.transmit [a, v] 0] }) := by
  simp [setRegister, TwoWire.beginTransmission, TwoWire.write, TwoWire.endTransmission,
    memory_transmit_write, memory_latency, Nat.mod_eq_of_lt ha, Nat.mod_eq_of_lt hv]

theorem clamp_three_bits (v : Nat) : (if v > 0b111 then 0b111 else v) = min v 7 := by
  split <;> omega

set_option maxRecDepth 100000 in
theorem sampleRate_bits : ∀ c < 256, ∀ r < 8,
    ((c &&& 0b10001111) ||| (r <<< 4)) % 256 = (c &&& 0x8F) ||| (r <<< 4) ∧
    (((c &&& 0x8F) ||| (r <<< 4)) >>> 4) &&& 7 = r ∧
    ((c &&& 0x8F) ||| (r <<< 4)) &&& 0x8F = c &&& 0x8F ∧
    (c &&& 0x8F) ||| (r <<< 4) < 256 := by
  decide

/-! ## C2: `setSampleRate` -/

/-- C2: on the storing device, with CTRL2 holding the byte `c`, `setSampleRate rate`
reads CTRL2 and writes `(c AND 0x8F) OR (min rate 7 << 4)` back to it, and
reports success. In the written value bits 4-6 hold `min rate 7` and bits 0-3
and 7 are those of `c`; no other register changes. -/
theorem setSampleRate_writes_field (k : RegisterMap) (rate c : Nat) (w : World Memory)
    (hk : k.NAU7802_CTRL2 < 256) (hc : w.dev.regs k.NAU7802_CTRL2 = c) (hc8 : c < 256) :
    (setSampleRate memoryDevice k rate w).1 = true ∧
    (setSampleRate memoryDevice k rate w).2.log =
      w.log ++ [Event.transmit [k.NAU7802_CTRL2] 0, Event.request 1 [c],
        Event.transmit [k.NAU7802_CTRL2, (c &&& 0x8F) ||| (min rate 7 <<< 4)] 0] ∧
    (setSampleRate memoryDevice k rate w).2.dev.regs =
      Function.update w.dev.regs k.NAU7802_CTRL2 ((c &&& 0x8F) ||| (min rate 7 <<< 4)) ∧
    (((c &&& 0x8F) ||| (min rate 7 <<< 4)) >>> 4) &&& 7 = min rate 7 ∧
    ((c &&& 0x8F) ||| (min rate 7 <<< 4)) &&& 0x8F = c &&& 0x8F := by
  have hr : min rate 7 < 8 := by omega
  obtain ⟨h1, h2, h3, h4⟩ := sampleRate_bits c hc8 (min rate 7) hr
  have h4' : (c &&& 143) ||| (min rate 7 <<< 4) < 256 := h4
  have h1' : ((c &&& 143) ||| (min rate 7 <<< 4)) % 256 = (c &&& 143) ||| (min rate 7 <<< 4) := h1
  subst hc
  refine ⟨?_, ?_, ?_, h2, h3⟩ <;>
    simp [setSampleRate, clamp_three_bits, getRegister_memory _ _ hk, Nat.mod_eq_of_lt hc8,
      h1', setRegister_memory _ _ _ hk h4']

/-- Witness of C2: rate 9 on CTRL2 = 0xA5 writes 0xF5. -/
theorem setSampleRate_writes_field_witness :
    (setSampleRate memoryDevice nau7802Map 9 (World.init sampleMemory)).2.dev.regs =
      Function.update (World.init sampleMemory).dev.regs nau7802Map.NAU7802_CTRL2
        ((0xA5 &&& 0x8F) ||| (min 9 7 <<< 4)) :=
  (setSampleRate_writes_field nau7802Map 9 0xA5 (World.init sampleMemory)
    (by decide) rfl (by decide)).2.2.1

/-! ## C3: `setGain` and `setLDO` -/

theorem setBit_memory (bit a : Nat) (w : World Memory) (ha : a < 256) :
    setBit memoryDevice bit a w =
      (true,
        { dev := { regs := Function.update w.dev.regs a
                     ((w.dev.regs a % 256 ||| (1 <<< bit)) % 256), pointer := a },
          txBuffer := [], rxBuffer := [], clock := w.clock,
          log := w.log ++ [Event.transmit [a] 0, Event.request 1 [w.dev.regs a],
            Event.transmit [a, (w.dev.regs a % 256 ||| (1 <<< bit)) % 256] 0] }) := by
  have hv : (w.dev.regs a % 256 ||| (1 <<< bit)) % 256 < 256 := Nat.mod_lt _ (by norm_num)
  simp [setBit, getRegister_memory _ _ ha, setRegister_memory _ _ _ ha hv]

theorem setGain_memory (k : RegisterMap) (v : Nat) (w : World Memory)
    (hk : k.NAU7802_CTRL1 < 256) :
    (setGain memoryDevice k v w).1 = true ∧
    (setGain memoryDevice k v w).2.dev.regs =
      Function.update w.dev.regs k.NAU7802_CTRL1
        (((w.dev.regs k.NAU7802_CTRL1 % 256 &&& 0b11111000) ||| min v 7) % 256) := by
  have hv : ((w.dev.regs k.NAU7802_CTRL1 % 256 &&& 0b11111000) ||| min v 7) % 256 < 256 :=
    Nat.mod_lt _ (by norm_num)
  constructor <;>
    simp [setGain, clamp_three_bits, getRegister_memory _ _ hk, setRegister_memory _ _ _ hk hv]

theorem setLDO_memory (k : RegisterMap) (v : Nat) (w : World Memory)
    (hk : k.NAU7802_CTRL1 < 256) (hp : k.NAU7802_PU_CTRL < 256)
    (hne : k.NAU7802_PU_CTRL ≠ k.NAU7802_CTRL1) :
    (setLDO memoryDevice k v w).1 = true ∧
    (setLDO memoryDevice k v w).2.dev.regs k.NAU7802_CTRL1 =
      ((w.dev.regs k.NAU7802_CTRL1 % 256 &&& 0b11000111) ||| (min v 7 <<< 3)) % 256 ∧
    (∀ a, a ≠ k.NAU7802_CTRL1 → a ≠ k.NAU7802_PU_CTRL →
      (setLDO memoryDevice k v w).2.dev.regs a = w.dev.regs a) := by
  have hv : ((w.dev.regs k.NAU7802_CTRL1 % 256 &&& 0b11000111) ||| (min v 7 <<< 3)) % 256 < 256 :=
    Nat.mod_lt _ (by norm_num)
  refine ⟨?_, ?_, ?_⟩
  · simp [setLDO, clamp_three_bits, getRegister_memory _ _ hk, setRegister_memory _ _ _ hk hv,
      setBit_memory _ _ _ hp]
  · simp [setLDO, clamp_three_bits, getRegister_memory _ _ hk, setRegister_memory _ _ _ hk hv,
      setBit_memory _ _ _ hp, Function.update, hne, Ne.symm hne]
  · intro a h1 h2
    simp [setLDO, clamp_three_bits, getRegister_memory _ _ hk, setRegister_memory _ _ _ hk hv,
      setBit_memory _ _ _ hp, Function.update, h1, h2]

set_option maxRecDepth 100000 in
theorem gain_bits : ∀ c < 256, ∀ g < 8,
    ((c % 256 &&& 0b11111000) ||| g) % 256 = (c &&& 0xF8) ||| g ∧
    ((c &&& 0xF8) ||| g) &&& 7 = g ∧
    ((c &&& 0xF8) ||| g) &&& 0xF8 = c &&& 0xF8 ∧
    (c &&& 0xF8) ||| g < 256 := by
  decide

set_option maxRecDepth 100000 in
theorem ldo_bits : ∀ c < 256, ∀ l < 8,
    ((c % 256 &&& 0b11000111) ||| (l <<< 3)) % 256 = (c &&& 0xC7) ||| (l <<< 3) ∧
    (((c &&& 0xC7) ||| (l <<< 3)) >>> 3) &&& 7 = l ∧
    ((c &&& 0xC7) ||| (l <<< 3)) &&& 0xC7 = c &&& 0xC7 ∧
    (c &&& 0xC7) ||| (l <<< 3) < 256 := by
  decide

set_option maxRecDepth 100000 in
theorem gain_ldo_disjoint : ∀ c < 256,
    (c &&& 0xC7) &&& 7 = c &&& 7 ∧ ((c &&& 0xF8) >>> 3) &&& 7 = (c >>> 3) &&& 7 ∧
    (c &&& 7) &&& 0xC7 = c &&& 7 := by
  decide

/-- C3: on the storing device, with CTRL1 holding the byte `c`, `setGain g`
writes `(c AND 0xF8) OR min g 7` and `setLDO l` writes
`(c AND 0xC7) OR (min l 7 << 3)` to CTRL1. Each written value differs from `c`
only in its own field (bits 0-2 for the gain, bits 3-5 for the LDO), and after
`setGain g` followed by `setLDO l`, or the other way round, CTRL1 holds
`min g 7` in the gain field and `min l 7` in the LDO field. -/
theorem setGain_setLDO_fields (k : RegisterMap) (g l c : Nat) (w : World Memory)
    (hk : k.NAU7802_CTRL1 < 256) (hp : k.NAU7802_PU_CTRL < 256)
    (hne : k.NAU7802_PU_CTRL ≠ k.NAU7802_CTRL1)
    (hc : w.dev.regs k.NAU7802_CTRL1 = c) (hc8 : c < 256) :
    ((setGain memoryDevice k g w).2.dev.regs =
        Function.update w.dev.regs k.NAU7802_CTRL1 ((c &&& 0xF8) ||| min g 7) ∧
      (setLDO memoryDevice k l w).2.dev.regs k.NAU7802_CTRL1 =
        (c &&& 0xC7) ||| (min l 7 <<< 3)) ∧
    (((c &&& 0xF8) ||| min g 7) &&& 7 = min g 7 ∧
      ((c &&& 0xF8) ||| min g 7) &&& 0xF8 = c &&& 0xF8 ∧
      (((c &&& 0xC7) ||| (min l 7 <<< 3)) >>> 3) &&& 7 = min l 7 ∧
      ((c &&& 0xC7) ||| (min l 7 <<< 3)) &&& 0xC7 = c &&& 0xC7) ∧
    ((setLDO memoryDevice k l (setGain memoryDevice k g w).2).2.dev.regs k.NAU7802_CTRL1
        &&& 7 = min g 7 ∧
      ((setLDO memoryDevice k l (setGain memoryDevice k g w).2).2.dev.regs k.NAU7802_CTRL1
        >>> 3) &&& 7 = min l 7) ∧
    ((setGain memoryDevice k g (setLDO memoryDevice k l w).2).2.dev.regs k.NAU7802_CTRL1
        &&& 7 = min g 7 ∧
      ((setGain memoryDevice k g (setLDO memoryDevice k l w).2).2.dev.regs k.NAU7802_CTRL1
        >>> 3) &&& 7 = min l 7) := by
  have hg8 : min g 7 < 8 := by omega
  have hl8 : min l 7 < 8 := by omega
  obtain ⟨g1, g2, g3, g4⟩ := gain_bits c hc8 (min g 7) hg8
  obtain ⟨l1, l2, l3, l4⟩ := ldo_bits c hc8 (min l 7) hl8
  -- the two single writes
  have hG : (setGain memoryDevice k g w).2.dev.regs =
      Function.update w.dev.regs k.NAU7802_CTRL1 ((c &&& 0xF8) ||| min g 7) := by
    rw [(setGain_memory k g w hk).2, hc]
    exact congrArg _ g1
  have hL : (setLDO memoryDevice k l w).2.dev.regs k.NAU7802_CTRL1 =
      (c &&& 0xC7) ||| (min l 7 <<< 3) := by
    rw [(setLDO_memory k l w hk hp hne).2.1, hc]
    exact l1
  refine ⟨⟨hG, hL⟩, ⟨g2, g3, l2, l3⟩, ?_, ?_⟩
  · -- setLDO after setGain
    have hX : (setGain memoryDevice k g w).2.dev.regs k.NAU7802_CTRL1 =
        (c &&& 0xF8) ||| min g 7 := by
      rw [hG]; simp
    obtain ⟨m1, m2, m3, _⟩ := ldo_bits _ g4 (min l 7) hl8
    have hN : (setLDO memoryDevice k l (setGain memoryDevice k g w).2).2.dev.regs
        k.NAU7802_CTRL1 = (((c &&& 0xF8) ||| min g 7) &&& 0xC7) ||| (min l 7 <<< 3) := by
      rw [(setLDO_memory k l _ hk hp hne).2.1, hX]
      exact m1
    rw [hN]
    refine ⟨?_, m2⟩
    have d1 := (gain_ldo_disjoint _ (ldo_bits _ g4 (min l 7) hl8).2.2.2).1
    have d2 := (gain_ldo_disjoint _ g4).1
    rw [← d1, m3, d2, g2]
  · -- setGain after setLDO
    obtain ⟨m1, m2, m3, m4⟩ := gain_bits _ l4 (min g 7) hg8
    have hN : (setGain memoryDevice k g (setLDO memoryDevice k l w).2).2.dev.regs
        k.NAU7802_CTRL1 = (((c &&& 0xC7) ||| (min l 7 <<< 3)) &&& 0xF8) ||| min g 7 := by
      rw [(setGain_memory k g _ hk).2, hL]
      simp only [Function.update_same]
      exact m1
    rw [hN]
    refine ⟨m2, ?_⟩
    have d1 := (gain_ldo_disjoint _ m4).2.1
    have d2 := (gain_ldo_disjoint _ l4).2.1
    rw [← d1, m3, d2, l2]

/-- Witness of C3: gain 9 and LDO 4 on CTRL1 = 0xA5. -/
theorem setGain_setLDO_fields_witness :
    (setLDO memoryDevice nau7802Map 4
        (setGain memoryDevice nau7802Map 9 (World.init sampleMemory)).2).2.dev.regs
        nau7802Map.NAU7802_CTRL1 &&& 7 = min 9 7 ∧
      ((setLDO memoryDevice nau7802Map 4
        (setGain memoryDevice nau7802Map 9 (World.init sampleMemory)).2).2.dev.regs
        nau7802Map.NAU7802_CTRL1 >>> 3) &&& 7 = min 4 7 :=
  (setGain_setLDO_fields nau7802Map 9 4 0xA5 (World.init sampleMemory)
    (by decide) (by decide) (by decide) rfl (by decide)).2.2.1

/-! ## C4: `setBit`, `clearBit`, `getBit` -/

theorem clearBit_memory (bit a : Nat) (w : World Memory) (ha : a < 256) :
    clearBit memoryDevice bit a w =
      (true,
        { dev := { regs := Function.update w.dev.regs a
                     (w.dev.regs a % 256 &&& (255 - (1 <<< bit) % 256)), pointer := a },
          txBuffer := [], rxBuffer := [], clock := w.clock,
          log := w.log ++ [Event.transmit [a] 0, Event.request 1 [w.dev.regs a],
            Event.transmit [a, w.dev.regs a % 256 &&& (255 - (1 <<< bit) % 256)] 0] }) := by
  have hv : w.dev.regs a % 256 &&& (255 - (1 <<< bit) % 256) < 256 :=
    lt_of_le_of_lt Nat.and_le_left (Nat.mod_lt _ (by norm_num))
  simp [clearBit, getRegister_memory _ _ ha, setRegister_memory _ _ _ ha hv]

theorem getBit_memory (bit a : Nat) (w : World Memory) (ha : a < 256) :
    (getBit memoryDevice bit a w).1 =
      decide ((w.dev.regs a % 256 &&& (1 <<< bit)) % 256 ≠ 0) := by
  simp [getBit, getRegister_memory _ _ ha]

set_option maxRecDepth 100000 in
theorem setBit_bits : ∀ c < 256, ∀ b < 8,
    (c % 256 ||| (1 <<< b)) % 256 = c ||| (1 <<< b) ∧
    ((c ||| (1 <<< b)) % 256 &&& (1 <<< b)) % 256 ≠ 0 ∧
    ((c ||| (1 <<< b)) % 256 ||| (1 <<< b)) % 256 = c ||| (1 <<< b) := by
  decide

set_option maxRecDepth 100000 in
theorem clearBit_bits : ∀ c < 256, ∀ b < 8,
    ((c % 256 &&& (255 - (1 <<< b) % 256)) % 256 &&& (1 <<< b)) % 256 = 0 ∧
    (c % 256 &&& (255 - (1 <<< b) % 256)) % 256 &&& (255 - (1 <<< b) % 256) =
      c % 256 &&& (255 - (1 <<< b) % 256) ∧
    (c % 256 &&& (255 - (1 <<< b) % 256)) ||| (c &&& (1 <<< b)) = c := by
  decide

theorem testBit_one_shiftLeft_ne (b j : Nat) (h : j ≠ b) : (1 <<< b).testBit j = false := by
  rw [Nat.one_shiftLeft, Nat.testBit_two_pow]
  simp [Ne.symm h]

/-- C4: on the storing device, for a register address `a` holding the byte `c`
and a bit number below 8: `getBit` after `setBit` is true and `getBit` after
`clearBit` is false; doing `setBit` (or `clearBit`) twice leaves the registers
as doing it once; and either operation changes no other bit of the register
and no other register. -/
theorem setBit_clearBit_getBit (bit a c : Nat) (w : World Memory)
    (ha : a < 256) (hb : bit < 8) (hc : w.dev.regs a = c) (hc8 : c < 256) :
    ((getBit memoryDevice bit a (setBit memoryDevice bit a w).2).1 = true ∧
      (getBit memoryDevice bit a (clearBit memoryDevice bit a w).2).1 = false) ∧
    ((setBit memoryDevice bit a (setBit memoryDevice bit a w).2).2.dev.regs =
        (setBit memoryDevice bit a w).2.dev.regs ∧
      (clearBit memoryDevice bit a (clearBit memoryDevice bit a w).2).2.dev.regs =
        (clearBit memoryDevice bit a w).2.dev.regs) ∧
    ((∀ j, j ≠ bit →
        ((setBit memoryDevice bit a w).2.dev.regs a).testBit j = c.testBit j) ∧
      (∀ j, j ≠ bit →
        ((clearBit memoryDevice bit a w).2.dev.regs a).testBit j = c.testBit j)) ∧
    ((∀ r, r ≠ a → (setBit memoryDevice bit a w).2.dev.regs r = w.dev.regs r) ∧
      (∀ r, r ≠ a → (clearBit memoryDevice bit a w).2.dev.regs r = w.dev.regs r)) := by
  obtain ⟨s1, s2, s3⟩ := setBit_bits c hc8 bit hb
  obtain ⟨c1, c2, c3⟩ := clearBit_bits c hc8 bit hb
  subst hc
  refine ⟨⟨?_, ?_⟩, ⟨?_, ?_⟩, ⟨?_, ?_⟩, ⟨?_, ?_⟩⟩
  · rw [getBit_memory _ _ _ ha]
    simp only [setBit_memory _ _ _ ha, Function.update_same, s1]
    simpa using s2
  · rw [getBit_memory _ _ _ ha]
    simp only [clearBit_memory _ _ _ ha, Function.update_same]
    simpa using c1
  · simp only [setBit_memory _ _ _ ha, Function.update_same, Function.update_idem, s1, s3]
  · simp only [clearBit_memory _ _ _ ha, Function.update_same, Function.update_idem, c2]
  · intro j hj
    simp only [setBit_memory _ _ _ ha, Function.update_same, s1, Nat.testBit_or,
      testBit_one_shiftLeft_ne bit j hj, Bool.or_false]
  · intro j hj
    simp only [clearBit_memory _ _ _ ha, Function.update_same]
    conv_rhs => rw [← c3]
    simp only [Nat.testBit_or, Nat.testBit_and, testBit_one_shiftLeft_ne bit j hj,
      Bool.and_false, Bool.or_false]
  · intro r hr
    simp [setBit_memory _ _ _ ha, Function.update, hr]
  · intro r hr
    simp [clearBit_memory _ _ _ ha, Function.update, hr]

/-- Witness of C4: bit 3 of CTRL2 on a device whose registers hold `0xA5`. -/
theorem setBit_clearBit_getBit_witness :
    (getBit memoryDevice 3 2 (setBit memoryDevice 3 2 (World.init sampleMemory)).2).1 = true ∧
      (getBit memoryDevice 3 2 (clearBit memoryDevice 3 2 (World.init sampleMemory)).2).1
        = false :=
  (setBit_clearBit_getBit 3 2 0xA5 (World.init sampleMemory)
    (by decide) (by decide) rfl (by decide)).1

/-! ## C5: `begin` on a device that never acknowledges -/

/-- C5: if the device acknowledges no transmission, `begin` returns false, with
any fuel, and all it did on the bus are two transmissions without payload
(the presence checks), both not acknowledged: no register is read or written
and no delay is made. -/
theorem begin_absent (d : Device σ) (k : RegisterMap) (fuel : Nat) (w : World σ)
    (hnack : ∀ s payload, (d.transmit s payload).1 ≠ 0) :
    ∃ st1 st2 w1, st1 ≠ 0 ∧ st2 ≠ 0 ∧
      begin d k fuel w = Except.ok (false, w1) ∧
      w1.log = w.log ++ [Event.transmit [] st1, Event.transmit [] st2] := by
  refine ⟨(d.transmit w.dev []).1, (d.transmit (d.transmit w.dev []).2 []).1,
    (isConnected d (isConnected d w).2).2, hnack _ _, hnack _ _, ?_, ?_⟩
  · simp [begin, isConnected, TwoWire.beginTransmission, TwoWire.endTransmission, hnack]
  · simp [isConnected, TwoWire.beginTransmission, TwoWire.endTransmission, hnack]

/-- Witness of C5: the absent device. -/
theorem begin_absent_witness :
    ∃ st1 st2 w1, st1 ≠ 0 ∧ st2 ≠ 0 ∧
      begin absentDevice nau7802Map 0 (World.init ()) = Except.ok (false, w1) ∧
      w1.log = (World.init ()).log ++ [Event.transmit [] st1, Event.transmit [] st2] :=
  begin_absent absentDevice nau7802Map 0 (World.init ()) (fun _ _ => by simp [absentDevice])

/-! ## C6: `calibrate` when the start bit never clears -/

theorem delayCount_append (l1 l2 : List Event) :
    delayCount (l1 ++ l2) = delayCount l1 + delayCount l2 := by
  simp [delayCount]

theorem delayCount_getRegister (d : Device σ) (a : Nat) (w : World σ) :
    delayCount (getRegister d a w).2.log = delayCount w.log := by
  unfold getRegister
  simp only [TwoWire.beginTransmission, TwoWire.write, TwoWire.endTransmission,
    TwoWire.requestFrom, TwoWire.available, TwoWire.read]
  split
  · simp [delayCount]
  · split
    · split <;> simp [delayCount]
    · simp [delayCount]

theorem delayCount_setRegister (d : Device σ) (a v : Nat) (w : World σ) :
    delayCount (setRegister d a v w).2.log = delayCount w.log := by
  unfold setRegister
  simp only [TwoWire.beginTransmission, TwoWire.write, TwoWire.endTransmission]
  split <;> simp [delayCount]

theorem delayCount_getBit (d : Device σ) (b a : Nat) (w : World σ) :
    delayCount (getBit d b a w).2.log = delayCount w.log := by
  simp [getBit, delayCount_getRegister]

theorem delayCount_setBit (d : Device σ) (b a : Nat) (w : World σ) :
    delayCount (setBit d b a w).2.log = delayCount w.log := by
  simp [setBit, delayCount_setRegister, delayCount_getRegister]

theorem delayCount_delay (ms : Nat) (w : World σ) :
    delayCount (delay ms w).log = delayCount w.log + 1 := by
  simp [delay, delayCount]

theorem getBit_absent (b a : Nat) (hb : b < 8) (w : World Unit) :
    (getBit absentDevice b a w).1 = true := by
  have h : ∀ b < 8, (toUInt8 (-1) &&& (1 <<< b)) % 256 ≠ 0 := by decide
  simpa [getBit, getRegister, TwoWire.beginTransmission, TwoWire.write,
    TwoWire.endTransmission, absentDevice] using h b hb

theorem delayCount_pollStep (d : Device σ) (b a : Nat) (w : World σ) :
    delayCount (pollStep d b a w).log = delayCount w.log + 1 := by
  unfold pollStep
  rw [delayCount_delay, delayCount_getBit]

theorem delayCount_pollStep_iterate (d : Device σ) (b a : Nat) :
    ∀ (m : Nat) (w : World σ),
      delayCount ((pollStep d b a)^[m] w).log = delayCount w.log + m := by
  intro m
  induction m with
  | zero => intro w; rfl
  | succ m ih =>
    intro w
    rw [Function.iterate_succ_apply, ih, delayCount_pollStep]
    omega

/-- The polling loop of `calibrate` when the start bit reads set on every poll
of the run: from counter value `1001 - j` it makes exactly `j + 1` polls, each
followed by a delay, and returns false. -/
theorem calibrateWait_run (d : Device σ) (k : RegisterMap) :
    ∀ (j fuel counter : Nat) (w : World σ), counter + j = 1001 →
      (∀ i, i ≤ j → (getBit d k.NAU7802_CTRL2_CALS k.NAU7802_CTRL2
        ((pollStep d k.NAU7802_CTRL2_CALS k.NAU7802_CTRL2)^[i] w)).1 = true) →
      (fuel < j + 1 → calibrateWait d k fuel counter w = Except.error Fault.outOfFuel) ∧
      (j + 1 ≤ fuel → calibrateWait d k fuel counter w =
        Except.ok (false, (pollStep d k.NAU7802_CTRL2_CALS k.NAU7802_CTRL2)^[j + 1] w)) := by
  intro j
  induction j with
  | zero =>
    intro fuel counter w hc hset
    have h0 := hset 0 (le_refl _)
    simp only [Function.iterate_zero, id_eq] at h0
    have hcnt : counter > 1000 := by omega
    constructor
    · intro hf
      have : fuel = 0 := by omega
      subst this
      rfl
    · intro hf
      obtain ⟨m, rfl⟩ : ∃ m, fuel = m + 1 := ⟨fuel - 1, by omega⟩
      rw [calibrateWait]
      simp only [h0, Bool.true_eq_false, if_false, hcnt, if_true]
      rfl
  | succ j ih =>
    intro fuel counter w hc hset
    have h0 := hset 0 (by omega)
    simp only [Function.iterate_zero, id_eq] at h0
    have hcnt : ¬ counter > 1000 := by omega
    have hmod : (counter + 1) % 65536 = counter + 1 := Nat.mod_eq_of_lt (by omega)
    obtain ⟨ih1, ih2⟩ := ih (fuel - 1) (counter + 1)
      (pollStep d k.NAU7802_CTRL2_CALS k.NAU7802_CTRL2 w) (by omega)
      (fun i hi => by
        have := hset (i + 1) (by omega)
        rwa [Function.iterate_succ_apply] at this)
    cases fuel with
    | zero =>
      constructor
      · intro _; rfl
      · intro hf; omega
    | succ m =>
      have hstep : calibrateWait d k (m + 1) counter w =
          calibrateWait d k m (counter + 1)
            (pollStep d k.NAU7802_CTRL2_CALS k.NAU7802_CTRL2 w) := by
        rw [calibrateWait]
        simp only [h0, Bool.true_eq_false, if_false, hcnt, hmod]
        rfl
      simp only [Nat.add_sub_cancel] at ih1 ih2
      rw [hstep]
      constructor
      · intro hf
        exact ih1 (by omega)
      · intro hf
        rw [ih2 (by omega)]
        rfl

/-- When the start bit reads set on each of the 1002 polls `calibrate` makes,
it needs exactly 1002 loop iterations and returns false in the world left by
1002 polls and delays. -/
theorem calibrate_run (d : Device σ) (k : RegisterMap) (fuel : Nat) (w : World σ)
    (hset : ∀ i, i ≤ 1001 → (getBit d k.NAU7802_CTRL2_CALS k.NAU7802_CTRL2
      ((pollStep d k.NAU7802_CTRL2_CALS k.NAU7802_CTRL2)^[i]
        (setBit d k.NAU7802_CTRL2_CALS k.NAU7802_CTRL2 w).2)).1 = true) :
    (fuel < 1002 → calibrate d k fuel w = Except.error Fault.outOfFuel) ∧
    (1002 ≤ fuel → calibrate d k fuel w =
      Except.ok (false, (pollStep d k.NAU7802_CTRL2_CALS k.NAU7802_CTRL2)^[1002]
        (setBit d k.NAU7802_CTRL2_CALS k.NAU7802_CTRL2 w).2)) := by
  obtain ⟨h1, h2⟩ := calibrateWait_run d k 1001 fuel 0
    (setBit d k.NAU7802_CTRL2_CALS k.NAU7802_CTRL2 w).2 (by omega) hset
  constructor
  · intro h
    simp [calibrate, h1 (by omega)]
  · intro h
    unfold calibrate
    simp only [h2 (by omega)]

theorem pollStep_memory_regs (b a : Nat) (ha : a < 256) :
    ∀ (i : Nat) (w : World Memory),
      ((pollStep memoryDevice b a)^[i] w).dev.regs = w.dev.regs := by
  intro i
  induction i with
  | zero => intro w; rfl
  | succ i ih =>
    intro w
    rw [Function.iterate_succ_apply, ih]
    simp [pollStep, delay, getBit, getRegister_memory _ _ ha]

/-- On the storing device every poll of a run reads the bit as the register
holds it at the start of the run. -/
theorem getBit_memory_poll (b a i : Nat) (w : World Memory) (ha : a < 256) :
    (getBit memoryDevice b a ((pollStep memoryDevice b a)^[i] w)).1 =
      decide ((w.dev.regs a % 256 &&& (1 <<< b)) % 256 ≠ 0) := by
  rw [getBit_memory _ _ _ ha, pollStep_memory_regs b a ha]

/-- C6, as amended: if the calibration-start bit reads as set on every poll
`calibrate` makes, `calibrate` terminates and returns false after exactly 1002
polling iterations, with 1002 one-millisecond delays: fuel for 1002 iterations
or more gives that result, less fuel does not finish the loop. -/
theorem calibrate_timeout (d : Device σ) (k : RegisterMap) (w : World σ)
    (hset : ∀ i, i ≤ 1001 → (getBit d k.NAU7802_CTRL2_CALS k.NAU7802_CTRL2
      ((pollStep d k.NAU7802_CTRL2_CALS k.NAU7802_CTRL2)^[i]
        (setBit d k.NAU7802_CTRL2_CALS k.NAU7802_CTRL2 w).2)).1 = true) :
    (∀ fuel, 1002 ≤ fuel → ∃ w1, calibrate d k fuel w = Except.ok (false, w1) ∧
      delayCount w1.log = delayCount w.log + 1002) ∧
    (∀ fuel, fuel < 1002 → calibrate d k fuel w = Except.error Fault.outOfFuel) := by
  refine ⟨fun fuel h => ⟨_, (calibrate_run d k fuel w hset).2 h, ?_⟩,
    fun fuel h => (calibrate_run d k fuel w hset).1 h⟩
  rw [delayCount_pollStep_iterate, delayCount_setBit]

theorem memory_calibrate_polls_set (i : Nat) :
    (getBit memoryDevice nau7802Map.NAU7802_CTRL2_CALS nau7802Map.NAU7802_CTRL2
      ((pollStep memoryDevice nau7802Map.NAU7802_CTRL2_CALS nau7802Map.NAU7802_CTRL2)^[i]
        (setBit memoryDevice nau7802Map.NAU7802_CTRL2_CALS nau7802Map.NAU7802_CTRL2
          (World.init (readyMemory 0))).2)).1 = true := by
  rw [getBit_memory_poll _ _ _ _ (by decide)]
  decide

/-- Witness of C6: the storing device, whose start bit is clear until the
driver sets it and then stays set; fuel for 1002 iterations gives the result,
fuel for 1001 does not. -/
theorem calibrate_timeout_witness :
    (∃ w1, calibrate memoryDevice nau7802Map 1002 (World.init (readyMemory 0)) =
        Except.ok (false, w1) ∧
      delayCount w1.log = delayCount (World.init (readyMemory 0)).log + 1002) ∧
    calibrate memoryDevice nau7802Map 1001 (World.init (readyMemory 0)) =
      Except.error Fault.outOfFuel :=
  ⟨(calibrate_timeout memoryDevice nau7802Map (World.init (readyMemory 0))
      (fun i _ => memory_calibrate_polls_set i)).1 1002 (le_refl _),
    (calibrate_timeout memoryDevice nau7802Map (World.init (readyMemory 0))
      (fun i _ => memory_calibrate_polls_set i)).2 1001 (by decide)⟩

/-- Counterexample to C6 as stated: on the storing device the start bit reads
as set on every poll of the run, yet 1000 polling iterations do not finish
`calibrate`, and when it returns false it has made 1002 delays, not at most
1000. -/
theorem calibrate_timeout_counterexample :
    (∀ i, (getBit memoryDevice nau7802Map.NAU7802_CTRL2_CALS nau7802Map.NAU7802_CTRL2
      ((pollStep memoryDevice nau7802Map.NAU7802_CTRL2_CALS nau7802Map.NAU7802_CTRL2)^[i]
        (setBit memoryDevice nau7802Map.NAU7802_CTRL2_CALS nau7802Map.NAU7802_CTRL2
          (World.init (readyMemory 0))).2)).1 = true) ∧
    calibrate memoryDevice nau7802Map 1000 (World.init (readyMemory 0)) =
      Except.error Fault.outOfFuel ∧
    ¬ (∃ w1, calibrate memoryDevice nau7802Map 1002 (World.init (readyMemory 0)) =
        Except.ok (false, w1) ∧ delayCount w1.log ≤ 1000) := by
  have hrun := calibrate_run memoryDevice nau7802Map
  refine ⟨memory_calibrate_polls_set,
    (hrun 1000 (World.init (readyMemory 0)) (fun i _ => memory_calibrate_polls_set i)).1
      (by omega), ?_⟩
  rintro ⟨w1, e1, e2⟩
  have f1 := (hrun 1002 (World.init (readyMemory 0))
    (fun i _ => memory_calibrate_polls_set i)).2 (le_refl _)
  rw [f1] at e1
  injection e1 with e1
  injection e1 with _ e1
  subst e1
  rw [delayCount_pollStep_iterate, delayCount_setBit] at e2
  have : delayCount (World.init (readyMemory 0)).log = 0 := rfl
  omega

/-! ## C7: `getReading` -/

theorem toUInt32_byte (b : Nat) : toUInt32 ((b : Int) % 256) = b % 256 := by
  unfold toUInt32
  omega

theorem bigEndian_or (b0 b1 b2 : Nat) (h0 : b0 < 256) (h1 : b1 < 256) (h2 : b2 < 256) :
    (b0 <<< 16) % 2 ^ 32 ||| (b1 <<< 8) % 2 ^ 32 ||| b2 = b0 * 65536 + b1 * 256 + b2 := by
  have e0 : (b0 <<< 16) % 2 ^ 32 = 2 ^ 16 * b0 := by
    rw [Nat.shiftLeft_eq, Nat.mod_eq_of_lt (by omega)]; ring
  have e1 : (b1 <<< 8) % 2 ^ 32 = b1 * 256 := by
    rw [Nat.shiftLeft_eq, Nat.mod_eq_of_lt (by omega)]
  have hb : b1 * 256 < 2 ^ 16 := by omega
  rw [e0, e1, ← Nat.mul_add_lt_is_or hb b0]
  have e2 : 2 ^ 16 * b0 + b1 * 256 = 2 ^ 8 * (256 * b0 + b1) := by ring
  have hc : b2 < 2 ^ 8 := by omega
  rw [e2, ← Nat.mul_add_lt_is_or hc]
  ring

theorem read_cons (w : World σ) (b : Nat) (rest : List Nat) (h : w.rxBuffer = b :: rest) :
    TwoWire.read w = ((b : Int), { w with rxBuffer := rest }) := by
  simp [TwoWire.read, h]

theorem toUInt32_of_byte (b : Nat) (hb : b < 256) : toUInt32 (b : Int) = b := by
  unfold toUInt32
  omega

/-- The second half of `getReading`, on a receive buffer holding three bytes. -/
theorem getReading_of_rx (W : World σ) (b0 b1 b2 : Nat) (h : W.rxBuffer = [b0, b1, b2])
    (h0 : b0 < 256) (h1 : b1 < 256) (h2 : b2 < 256) :
    (if TwoWire.available W ≠ 0 then
      ((toUInt32 (TwoWire.read W).1 <<< 16) % 2 ^ 32 |||
          (toUInt32 (TwoWire.read (TwoWire.read W).2).1 <<< 8) % 2 ^ 32 |||
          toUInt32 (TwoWire.read (TwoWire.read (TwoWire.read W).2).2).1,
        (TwoWire.read (TwoWire.read (TwoWire.read W).2).2).2)
    else (0, W)).1 = b0 * 65536 + b1 * 256 + b2 := by
  have ha : TwoWire.available W ≠ 0 := by simp [TwoWire.available, h]
  rw [if_pos ha, read_cons W b0 [b1, b2] h, read_cons _ b1 [b2] rfl, read_cons _ b2 [] rfl]
  simp only [toUInt32_of_byte b0 h0, toUInt32_of_byte b1 h1, toUInt32_of_byte b2 h2]
  exact bigEndian_or b0 b1 b2 h0 h1 h2

theorem getReading_status (d : Device σ) (k : RegisterMap) (w : World σ) :
    (TwoWire.endTransmission d
      (TwoWire.write k.NAU7802_ADCO_B2 (TwoWire.beginTransmission w))).1 =
      (d.transmit w.dev [k.NAU7802_ADCO_B2 % 256]).1 := by
  simp [TwoWire.beginTransmission, TwoWire.write, TwoWire.endTransmission]

theorem getReading_rx (d : Device σ) (k : RegisterMap) (w : World σ) :
    (TwoWire.requestFrom d 3 (TwoWire.endTransmission d
      (TwoWire.write k.NAU7802_ADCO_B2 (TwoWire.beginTransmission w))).2).rxBuffer =
      ((d.request (d.transmit w.dev [k.NAU7802_ADCO_B2 % 256]).2 3).1.take 3).map
        (fun b => b % 256) := by
  simp [TwoWire.beginTransmission, TwoWire.write, TwoWire.endTransmission, TwoWire.requestFrom]

/-- C7: when the transmission of the ADC register address is acknowledged and
the device delivers the three bytes `b0 b1 b2`, `getReading` returns
`b0*65536 + b1*256 + b2`, a value below 2^24; when the transmission is not
acknowledged, or it is and the device delivers no data, `getReading` returns 0. -/
theorem getReading_value (d : Device σ) (k : RegisterMap) (w : World σ) (b0 b1 b2 : Nat) :
    ((d.transmit w.dev [k.NAU7802_ADCO_B2 % 256]).1 = 0 →
      (d.request (d.transmit w.dev [k.NAU7802_ADCO_B2 % 256]).2 3).1 = [b0, b1, b2] →
      b0 < 256 → b1 < 256 → b2 < 256 →
      (getReading d k w).1 = b0 * 65536 + b1 * 256 + b2 ∧ (getReading d k w).1 < 2 ^ 24) ∧
    ((d.transmit w.dev [k.NAU7802_ADCO_B2 % 256]).1 ≠ 0 → (getReading d k w).1 = 0) ∧
    ((d.transmit w.dev [k.NAU7802_ADCO_B2 % 256]).1 = 0 →
      (d.request (d.transmit w.dev [k.NAU7802_ADCO_B2 % 256]).2 3).1 = [] →
      (getReading d k w).1 = 0) := by
  refine ⟨?_, ?_, ?_⟩
  · intro hack hreq h0 h1 h2
    have hst := getReading_status d k w
    rw [hack] at hst
    have hrx := getReading_rx d k w
    rw [hreq] at hrx
    simp only [List.take, List.map, Nat.mod_eq_of_lt h0, Nat.mod_eq_of_lt h1,
      Nat.mod_eq_of_lt h2] at hrx
    have hv : (getReading d k w).1 = b0 * 65536 + b1 * 256 + b2 := by
      unfold getReading
      simp only [hst, ne_eq, not_true_eq_false, if_false]
      exact getReading_of_rx _ b0 b1 b2 hrx h0 h1 h2
    refine ⟨hv, ?_⟩
    rw [hv]
    omega
  · intro hnack
    have hst := getReading_status d k w
    unfold getReading
    simp only []
    rw [if_pos (by rw [hst]; exact hnack)]
  · intro hack hreq
    have hst := getReading_status d k w
    rw [hack] at hst
    have hrx := getReading_rx d k w
    rw [hreq] at hrx
    unfold getReading
    simp only [hst, ne_eq, not_true_eq_false, if_false, TwoWire.available, hrx, List.take,
      List.map, List.length_nil]

/-- Witness of C7: the storing device with reading 8000000 = 0x7A1200, the
absent device, and the device that acknowledges but delivers nothing. -/
theorem getReading_value_witness :
    ((getReading memoryDevice nau7802Map (World.init (readyMemory 8000000))).1
        = 0x7A * 65536 + 0x12 * 256 + 0x00 ∧
      (getReading memoryDevice nau7802Map (World.init (readyMemory 8000000))).1 < 2 ^ 24) ∧
    (getReading absentDevice nau7802Map (World.init ())).1 = 0 ∧
    (getReading silentDevice nau7802Map (World.init ())).1 = 0 :=
  ⟨(getReading_value memoryDevice nau7802Map (World.init (readyMemory 8000000))
      0x7A 0x12 0x00).1 rfl (by decide) (by decide) (by decide) (by decide),
    (getReading_value absentDevice nau7802Map (World.init ()) 0 0 0).2.1 (by decide),
    (getReading_value silentDevice nau7802Map (World.init ()) 0 0 0).2.2 rfl rfl⟩

/-! ## `getAverage` on a steady storing device -/

theorem read_snd_dev (w : World σ) : (TwoWire.read w).2.dev = w.dev := by
  unfold TwoWire.read; split <;> rfl

theorem read_snd_clock (w : World σ) : (TwoWire.read w).2.clock = w.clock := by
  unfold TwoWire.read; split <;> rfl

theorem memory_request_three (s : Memory) :
    memoryDevice.request s 3 =
      ([s.regs s.pointer, s.regs (s.pointer + 1), s.regs (s.pointer + 2)], s) := by
  simp [memoryDevice, List.range_succ]

theorem getReading_memory_frame (k : RegisterMap) (w : World Memory) :
    (getReading memoryDevice k w).2.dev.regs = w.dev.regs ∧
    (getReading memoryDevice k w).2.clock = w.clock := by
  have hst := getReading_status memoryDevice k w
  rw [memory_transmit_address] at hst
  unfold getReading
  simp only [hst, ne_eq, not_true_eq_false, if_false]
  split
  · simp [read_snd_dev, read_snd_clock, TwoWire.requestFrom, TwoWire.endTransmission,
      TwoWire.write, TwoWire.beginTransmission, memory_transmit_address, memory_request_three,
      memory_latency]
  · simp [TwoWire.requestFrom, TwoWire.endTransmission,
      TwoWire.write, TwoWire.beginTransmission, memory_transmit_address, memory_request_three,
      memory_latency]

theorem getReading_steady (k : RegisterMap) (r c : Nat) (w : World Memory)
    (hA : k.NAU7802_ADCO_B2 < 256) (hr : r < 2 ^ 24) (hs : Steady k r c w) :
    (getReading memoryDevice k w).1 = r ∧ Steady k r c (getReading memoryDevice k w).2 := by
  obtain ⟨s1, s2, s3, s4, s5⟩ := hs
  obtain ⟨f1, f2⟩ := getReading_memory_frame k w
  constructor
  · have h := (getReading_value memoryDevice k w (r / 65536 % 256) (r / 256 % 256)
      (r % 256)).1
    rw [Nat.mod_eq_of_lt hA, memory_transmit_address, memory_request_three] at h
    have h' := (h rfl (by simp [s2, s3, s4]) (Nat.mod_lt _ (by norm_num))
      (Nat.mod_lt _ (by norm_num)) (Nat.mod_lt _ (by norm_num))).1
    rw [h']
    omega
  · exact ⟨by rw [f1]; exact s1, by rw [f1]; exact s2, by rw [f1]; exact s3,
      by rw [f1]; exact s4, by rw [f2]; exact s5⟩

theorem available_steady (k : RegisterMap) (r c : Nat) (w : World Memory)
    (hP : k.NAU7802_PU_CTRL < 256) (hs : Steady k r c w) :
    (available memoryDevice k w).1 = true ∧ Steady k r c (available memoryDevice k w).2 := by
  obtain ⟨s1, s2, s3, s4, s5⟩ := hs
  constructor
  · unfold available
    rw [getBit_memory _ _ _ hP]
    simpa using s1
  · simp only [available, getBit, getRegister_memory _ _ hP]
    exact ⟨s1, s2, s3, s4, s5⟩

/-- The loop of `getAverage` on a steady device whose clock stands at the start
time: from `samplesAquired ≤ averageAmount` it takes
`averageAmount + 1 - samplesAquired` more readings and leaves by `break`. -/
theorem getAverageLoop_steady (k : RegisterMap) (r c n : Nat)
    (hP : k.NAU7802_PU_CTRL < 256) (hA : k.NAU7802_ADCO_B2 < 256) (hr : r < 2 ^ 24)
    (hn : n ≤ 255) :
    ∀ (fuel total samples : Nat) (w : World Memory), Steady k r c w → samples ≤ n →
      n + 1 - samples ≤ fuel →
      ∃ w1, getAverageLoop memoryDevice k n (c % 2 ^ 32) fuel total samples w =
          Except.ok (some ((total + (n + 1 - samples) * r) % 2 ^ 32), w1) ∧
        Steady k r c w1 := by
  intro fuel
  induction fuel with
  | zero => intro total samples w _ h1 h2; omega
  | succ m ih =>
    intro total samples w hs h1 h2
    obtain ⟨a1, a2⟩ := available_steady k r c w hP hs
    obtain ⟨g1, g2⟩ := getReading_steady k r c _ hA hr a2
    have hclock : (getReading memoryDevice k (available memoryDevice k w).2).2.clock = c :=
      g2.2.2.2.2
    by_cases hsn : samples = n
    · refine ⟨(getReading memoryDevice k (available memoryDevice k w).2).2, ?_, g2⟩
      subst hsn
      have e : samples + 1 - samples = 1 := by omega
      simp [getAverageLoop, a1, g1, e]
    · have hmod : (samples + 1) % 256 = samples + 1 := Nat.mod_eq_of_lt (by omega)
      have htime : ¬ ((millis (getReading memoryDevice k (available memoryDevice k w).2).2
          + 2 ^ 32 - c % 2 ^ 32) % 2 ^ 32 > 1000) := by
        unfold millis
        rw [hclock]
        omega
      obtain ⟨w1, e1, e2⟩ := ih ((total + r) % 2 ^ 32) (samples + 1) _ g2 (by omega) (by omega)
      refine ⟨w1, ?_, e2⟩
      have hstep : getAverageLoop memoryDevice k n (c % 2 ^ 32) (m + 1) total samples w =
          getAverageLoop memoryDevice k n (c % 2 ^ 32) m ((total + r) % 2 ^ 32) (samples + 1)
            (getReading memoryDevice k (available memoryDevice k w).2).2 := by
        rw [getAverageLoop]
        simp only [a1, g1, hsn, if_true, if_false, htime, hmod]
      rw [hstep, e1]
      have e3 : n + 1 - samples = (n + 1 - (samples + 1)) + 1 := by omega
      rw [e3, Nat.add_mul, Nat.one_mul]
      generalize (n + 1 - (samples + 1)) * r = x
      have : ((total + r) % 2 ^ 32 + x) % 2 ^ 32 = (total + (x + r)) % 2 ^ 32 := by omega
      rw [this]

/-- On a steady device reporting the reading `r` with a conversion always ready
and a clock that stands still, `getAverage n` (`1 ≤ n ≤ 255`) returns
`(n + 1) * r / n`: it sums `n + 1` readings and divides by `n`. -/
theorem getAverage_steady (k : RegisterMap) (r c n fuel : Nat) (w : World Memory)
    (hP : k.NAU7802_PU_CTRL < 256) (hA : k.NAU7802_ADCO_B2 < 256) (hr : r < 2 ^ 24)
    (hn1 : 1 ≤ n) (hn : n ≤ 255) (hs : Steady k r c w) (hfuel : n + 1 ≤ fuel) :
    ∃ w1, getAverage memoryDevice k n fuel w = Except.ok ((n + 1) * r / n, w1) := by
  obtain ⟨w1, e1, _⟩ := getAverageLoop_steady k r c n hP hA hr hn fuel 0 0 w hs (by omega)
    (by omega)
  refine ⟨w1, ?_⟩
  have hc : millis w = c % 2 ^ 32 := by unfold millis; rw [hs.2.2.2.2]
  have hn0 : n ≠ 0 := by omega
  have hlt : (n + 1) * r < 2 ^ 32 := by
    calc (n + 1) * r ≤ 256 * r := Nat.mul_le_mul_right _ (by omega)
      _ < 2 ^ 32 := by omega
  have hlt2 : (n + 1) * r % 4294967296 = (n + 1) * r := Nat.mod_eq_of_lt hlt
  unfold getAverage
  simp only [hc, e1, hn0, if_false]
  simp [hlt2]

theorem readyMemory_steady (r : Nat) :
    Steady nau7802Map r 0 (World.init (readyMemory r)) := by
  refine ⟨?_, ?_, ?_, ?_, rfl⟩ <;> simp [World.init, readyMemory, nau7802Map]

theorem getAverageLoop_lt (d : Device σ) (k : RegisterMap) (n st : Nat) :
    ∀ (fuel total samples : Nat) (w : World σ) (t : Nat) (w1 : World σ),
      getAverageLoop d k n st fuel total samples w = Except.ok (some t, w1) → t < 2 ^ 32 := by
  intro fuel
  induction fuel with
  | zero =>
    intro total samples w t w1 h
    simp [getAverageLoop] at h
  | succ m ih =>
    intro total samples w t w1 h
    rw [getAverageLoop] at h
    simp only [] at h
    split at h
    · split at h
      · injection h with h
        injection h with h _
        injection h with h
        rw [← h]
        exact Nat.mod_lt _ (by norm_num)
      · split at h
        · injection h with h
          injection h with h _
          exact absurd h (by simp)
        · exact ih _ _ _ _ _ h
    · split at h
      · injection h with h
        injection h with h _
        exact absurd h (by simp)
      · exact ih _ _ _ _ _ h

theorem getAverage_lt (d : Device σ) (k : RegisterMap) (n fuel a : Nat) (w w1 : World σ)
    (h : getAverage d k n fuel w = Except.ok (a, w1)) : a < 2 ^ 32 := by
  unfold getAverage at h
  simp only [] at h
  split at h
  · exact absurd h (by simp)
  · injection h with h
    injection h with h _
    rw [← h]
    norm_num
  · rename_i total w2 heq
    split at h
    · exact absurd h (by simp)
    · injection h with h
      injection h with h _
      rw [← h]
      exact lt_of_le_of_lt (Nat.div_le_self _ _) (getAverageLoop_lt d k n _ _ _ _ _ _ _ heq)

/-! ## C1, C9: `getWeight` -/

theorem getWeight_of_average (self : NAU7802) (d : Device σ) (k : RegisterMap)
    (allow : Bool) (fuel a : Nat) (w w1 : World σ)
    (h : getAverage d k 8 fuel w = Except.ok (a, w1)) :
    getWeight self d k allow fuel w =
      Except.ok (F32.div (F32.ofNat
        (((if allow = false then (if a < self._zeroOffset then self._zeroOffset else a) else a)
          + 2 ^ 32 - self._zeroOffset) % 2 ^ 32)) self._calibrationFactor, w1) := by
  simp only [getWeight, h]

theorem F32.zero_div (f : F32) (hnan : f.isNaN = false) (hz : f.isZero = false) :
    (F32.div (F32.ofNat 0) f).isZero = true := by
  have h0 : F32.ofNat 0 = F32.fin false 0 (-149) := rfl
  rw [h0]
  cases f with
  | nan => simp [F32.isNaN] at hnan
  | inf t => simp [F32.div, F32.isZero]
  | fin t n e =>
    have hn : n ≠ 0 := by
      intro h
      subst h
      simp [F32.isZero] at hz
    unfold F32.div
    simp only [hn, if_false]
    split <;> simp [F32.ofRatio, F32.isZero]

/-- C1: whenever `getAverage(8)` returns the raw average `a`, `getWeight(false)`
returns the `float` quotient of `max a z - z` by the calibration factor `f`,
`z` being the zero offset. In particular the result is a zero when `a < z` and
`f` is a non-zero number, and it is 1000.0 for `z = 8000000`, `f = 1000.0`,
`a = 9000000`. -/
theorem getWeight_clamped (self : NAU7802) (d : Device σ) (k : RegisterMap)
    (fuel a : Nat) (w w1 : World σ) (hz : self._zeroOffset < 2 ^ 32)
    (havg : getAverage d k 8 fuel w = Except.ok (a, w1)) :
    getWeight self d k false fuel w =
      Except.ok (F32.div (F32.ofNat (max a self._zeroOffset - self._zeroOffset))
        self._calibrationFactor, w1) ∧
    (a < self._zeroOffset → self._calibrationFactor.isNaN = false →
      self._calibrationFactor.isZero = false →
      ∃ x, getWeight self d k false fuel w = Except.ok (x, w1) ∧ x.isZero = true) ∧
    (self._zeroOffset = 8000000 → self._calibrationFactor = F32.ofNat 1000 → a = 9000000 →
      getWeight self d k false fuel w = Except.ok (F32.ofNat 1000, w1)) := by
  have ha : a < 2 ^ 32 := getAverage_lt d k 8 fuel a w w1 havg
  have hmain : getWeight self d k false fuel w =
      Except.ok (F32.div (F32.ofNat (max a self._zeroOffset - self._zeroOffset))
        self._calibrationFactor, w1) := by
    rw [getWeight_of_average self d k false fuel a w w1 havg]
    have e : ((if false = false then (if a < self._zeroOffset then self._zeroOffset else a)
        else a) + 2 ^ 32 - self._zeroOffset) % 2 ^ 32
        = max a self._zeroOffset - self._zeroOffset := by
      simp only [if_true]
      split <;> omega
    rw [e]
  refine ⟨hmain, ?_, ?_⟩
  · intro hlt hnan hzero
    refine ⟨_, hmain, ?_⟩
    have e : max a self._zeroOffset - self._zeroOffset = 0 := by omega
    rw [e]
    exact F32.zero_div _ hnan hzero
  · intro h1 h2 h3
    rw [hmain, h1, h2, h3]
    rfl

/-- Witness of C1: every reading is 8000000, so `getAverage(8)` returns 9000000;
with zero offset 8000000 and factor 1000.0 the weight is 1000.0, and with zero
offset 9001000 the weight is a zero. -/
theorem getWeight_clamped_witness :
    (∃ w1, getAverage memoryDevice nau7802Map 8 9 (World.init (readyMemory 8000000)) =
        Except.ok (9000000, w1) ∧
      getWeight { _zeroOffset := 8000000, _calibrationFactor := F32.ofNat 1000 }
        memoryDevice nau7802Map false 9 (World.init (readyMemory 8000000)) =
        Except.ok (F32.ofNat 1000, w1)) ∧
    (∃ w1 x, getWeight { _zeroOffset := 9001000, _calibrationFactor := F32.ofNat 1000 }
        memoryDevice nau7802Map false 9 (World.init (readyMemory 8000000)) =
        Except.ok (x, w1) ∧ x.isZero = true) := by
  obtain ⟨w1, h⟩ := getAverage_steady nau7802Map 8000000 0 8 9 (World.init (readyMemory 8000000))
    (by decide) (by decide) (by decide) (by decide) (by decide) (readyMemory_steady _)
    (by decide)
  have h9 : (8 + 1) * 8000000 / 8 = 9000000 := by decide
  rw [h9] at h
  refine ⟨⟨w1, h, ?_⟩, ?_⟩
  · exact (getWeight_clamped { _zeroOffset := 8000000, _calibrationFactor := F32.ofNat 1000 }
      memoryDevice nau7802Map 9 9000000 _ w1 (by decide) h).2.2 rfl rfl rfl
  · obtain ⟨x, hx1, hx2⟩ :=
      (getWeight_clamped { _zeroOffset := 9001000, _calibrationFactor := F32.ofNat 1000 }
        memoryDevice nau7802Map 9 9000000 _ w1 (by decide) h).2.1 (by decide) (by decide)
        (by decide)
    exact ⟨w1, x, hx1, hx2⟩

/-- C9, failing input: every reading is 8000000, so `getAverage(8)` returns
9000000; with zero offset 9001000 and calibration factor 1000.0,
`getWeight(true)` returns 4294966.5 (the `uint32_t` difference wraps to
4294966296), a positive value, and not -1.0. -/
theorem getWeight_negative_wraps :
    ∃ w1, getAverage memoryDevice nau7802Map 8 9 (World.init (readyMemory 8000000)) =
        Except.ok (9000000, w1) ∧
      getWeight { _zeroOffset := 9001000, _calibrationFactor := F32.ofNat 1000 }
        memoryDevice nau7802Map true 9 (World.init (readyMemory 8000000)) =
        Except.ok (F32.fin false 8589933 (-1), w1) ∧
      F32.fin false 8589933 (-1) ≠ F32.neg (F32.ofNat 1) := by
  obtain ⟨w1, h⟩ := getAverage_steady nau7802Map 8000000 0 8 9 (World.init (readyMemory 8000000))
    (by decide) (by decide) (by decide) (by decide) (by decide) (readyMemory_steady _)
    (by decide)
  have h9 : (8 + 1) * 8000000 / 8 = 9000000 := by decide
  rw [h9] at h
  refine ⟨w1, h, ?_, by decide⟩
  rw [getWeight_of_average _ memoryDevice nau7802Map true 9 9000000 _ w1 h]
  rfl

/-! ## C8: `getAverage` of a constant reading -/

/-- C8, failing input: with a conversion always ready, every reading equal to
8000000 and a clock that stands still, `getAverage(8)` returns 9000000, not
8000000: nine readings are summed and the sum is divided by eight. -/
theorem getAverage_constant_reading :
    ∃ w1, getAverage memoryDevice nau7802Map 8 9 (World.init (readyMemory 8000000)) =
      Except.ok (9000000, w1) := by
  obtain ⟨w1, h⟩ := getAverage_steady nau7802Map 8000000 0 8 9 (World.init (readyMemory 8000000))
    (by decide) (by decide) (by decide) (by decide) (by decide) (readyMemory_steady _)
    (by decide)
  have h9 : (8 + 1) * 8000000 / 8 = 9000000 := by decide
  rw [h9] at h
  exact ⟨w1, h⟩

/-! ## C10: the result of `setLDO` -/

/-- C10, failing input: the bus loses the second transmission (the write of
the LDO field to CTRL1, status 2) and lets all others through. `setLDO 7`
returns true although CTRL1 still holds its old content `0xA5` and not `0xBD`. -/
theorem setLDO_ignores_first_write :
    (setLDO (faultyDevice memoryDevice) nau7802Map 7
        (World.init ([0, 2], sampleMemory))).1 = true ∧
    (setLDO (faultyDevice memoryDevice) nau7802Map 7
        (World.init ([0, 2], sampleMemory))).2.dev.2.regs nau7802Map.NAU7802_CTRL1 = 0xA5 ∧
    (setLDO (faultyDevice memoryDevice) nau7802Map 7
        (World.init ([0, 2], sampleMemory))).2.log =
      [Event.transmit [1] 0, Event.request 1 [0xA5], Event.transmit [1, 0xBD] 2,
        Event.transmit [0] 0, Event.request 1 [0xA5], Event.transmit [0, 0xA5] 0] := by
  refine ⟨by decide, by decide, by decide⟩

/-! ## C11: the boolean results when nothing is acknowledged -/

theorem setRegister_nack (d : Device σ) (a v : Nat) (w : World σ)
    (hnack : ∀ s payload, (d.transmit s payload).1 ≠ 0) :
    (setRegister d a v w).1 = false := by
  simp [setRegister, TwoWire.beginTransmission, TwoWire.write, TwoWire.endTransmission, hnack]

theorem getRegister_nack (d : Device σ) (a : Nat) (w : World σ)
    (hnack : ∀ s payload, (d.transmit s payload).1 ≠ 0) :
    (getRegister d a w).1 = 255 := by
  simp [getRegister, TwoWire.beginTransmission, TwoWire.write, TwoWire.endTransmission, hnack]
  rfl

/-- C11, as amended: when the device acknowledges no transmission,
`isConnected`, `setRegister`, `setBit` and `clearBit` return false. -/
theorem nack_reports_false (d : Device σ) (bit a v : Nat) (w : World σ)
    (hnack : ∀ s payload, (d.transmit s payload).1 ≠ 0) :
    (isConnected d w).1 = false ∧ (setRegister d a v w).1 = false ∧
    (setBit d bit a w).1 = false ∧ (clearBit d bit a w).1 = false := by
  refine ⟨?_, setRegister_nack d a v w hnack, ?_, ?_⟩
  · simp [isConnected, TwoWire.beginTransmission, TwoWire.endTransmission, hnack]
  · unfold setBit
    exact setRegister_nack d _ _ _ hnack
  · unfold clearBit
    exact setRegister_nack d _ _ _ hnack

/-- Witness of C11: the absent device. -/
theorem nack_reports_false_witness :
    (isConnected absentDevice (World.init ())).1 = false ∧
    (setRegister absentDevice 1 0x30 (World.init ())).1 = false ∧
    (setBit absentDevice 5 1 (World.init ())).1 = false ∧
    (clearBit absentDevice 5 1 (World.init ())).1 = false :=
  nack_reports_false absentDevice 5 1 0x30 (World.init ()) (fun _ _ => by simp [absentDevice])

/-- Counterexample to C11 as stated: on the absent device, which acknowledges
nothing, the failed register read yields `0xFF`, so `getBit` of the cycle-ready
bit and `available` return true, not false. -/
theorem nack_getBit_counterexample :
    (∀ s payload, (absentDevice.transmit s payload).1 ≠ 0) ∧
    (getBit absentDevice nau7802Map.NAU7802_PU_CTRL_CR nau7802Map.NAU7802_PU_CTRL
      (World.init ())).1 = true ∧
    (available absentDevice nau7802Map (World.init ())).1 = true :=
  ⟨fun _ _ => by simp [absentDevice], getBit_absent _ _ (by decide) _,
    getBit_absent _ _ (by decide) _⟩

/-! ## C15: the calibration accessors -/

/-- C15: `setCalibrationFactor x` followed by `getCalibrationFactor` returns `x`
and leaves the zero offset unchanged; `setZeroOffset v` followed by
`getZeroOffset` returns `v` and leaves the calibration factor unchanged. -/
theorem calibration_accessors_roundtrip (self : NAU7802) (x : F32) (v : Nat) :
    getCalibrationFactor (setCalibrationFactor self x) = x ∧
    getZeroOffset (setCalibrationFactor self x) = getZeroOffset self ∧
    getZeroOffset (setZeroOffset self v) = v ∧
    getCalibrationFactor (setZeroOffset self v) = getCalibrationFactor self :=
  ⟨rfl, rfl, rfl, rfl⟩

/-! ## C12: the setup steps of `begin` -/

/-- The polling loop of `calibrate` ends within `1002 - counter` iterations on
every device. -/
theorem calibrateWait_terminates (d : Device σ) (k : RegisterMap) :
    ∀ (fuel counter : Nat) (w : World σ), counter ≤ 1001 → 1002 - counter ≤ fuel →
      ∃ r, calibrateWait d k fuel counter w = Except.ok r := by
  intro fuel
  induction fuel with
  | zero => intro counter w h1 h2; omega
  | succ n ih =>
    intro counter w h1 h2
    rw [calibrateWait]
    simp only []
    split
    · exact ⟨_, rfl⟩
    · split
      · exact ⟨_, rfl⟩
      · rename_i hc
        have hmod : (counter + 1) % 65536 = counter + 1 := Nat.mod_eq_of_lt (by omega)
        rw [hmod]
        exact ih _ _ (by omega) (by omega)

/-- The polling loop of `powerUp` ends within `102 - counter` iterations on
every device. -/
theorem powerUpWait_terminates (d : Device σ) (k : RegisterMap) :
    ∀ (fuel counter : Nat) (w : World σ), counter ≤ 101 → 102 - counter ≤ fuel →
      ∃ r, powerUpWait d k fuel counter w = Except.ok r := by
  intro fuel
  induction fuel with
  | zero => intro counter w h1 h2; omega
  | succ n ih =>
    intro counter w h1 h2
    rw [powerUpWait]
    simp only []
    split
    · exact ⟨_, rfl⟩
    · split
      · exact ⟨_, rfl⟩
      · rename_i hc
        have hmod : (counter + 1) % 256 = counter + 1 := Nat.mod_eq_of_lt (by omega)
        rw [hmod]
        exact ih _ _ (by omega) (by omega)

theorem calibrate_terminates (d : Device σ) (k : RegisterMap) (fuel : Nat) (w : World σ)
    (hfuel : 1002 ≤ fuel) : ∃ r, calibrate d k fuel w = Except.ok r := by
  obtain ⟨r, hr⟩ := calibrateWait_terminates d k fuel 0
    (setBit d k.NAU7802_CTRL2_CALS k.NAU7802_CTRL2 w).2 (by omega) (by omega)
  unfold calibrate
  simp only [hr]
  obtain ⟨b, w1⟩ := r
  cases b
  · exact ⟨_, rfl⟩
  · simp only []
    split <;> exact ⟨_, rfl⟩

theorem powerUp_terminates (d : Device σ) (k : RegisterMap) (fuel : Nat) (w : World σ)
    (hfuel : 102 ≤ fuel) : ∃ r, powerUp d k fuel w = Except.ok r := by
  unfold powerUp
  exact powerUpWait_terminates d k fuel 0 _ (by omega) (by omega)

theorem beginSetup_eq_setupSteps (d : Device σ) (k : RegisterMap) (fuel : Nat) (w : World σ)
    (rs : List Bool) (w7 : World σ) (h : setupSteps d k fuel w = Except.ok (rs, w7)) :
    beginSetup d k fuel w = Except.ok (rs.all id, w7) := by
  unfold setupSteps at h
  unfold beginSetup
  split at h
  · exact absurd h (by simp)
  · rename_i r2 h2
    split at h
    · exact absurd h (by simp)
    · rename_i r7 h7
      simp only [h2, h7]
      injection h with h
      injection h with ha hb
      subst ha
      subst hb
      simp [List.all, Bool.and_assoc]

/-- With fuel for the two bounded polling loops the seven steps all run and
give seven results. -/
theorem setupSteps_total (d : Device σ) (k : RegisterMap) (fuel : Nat) (w : World σ)
    (hfuel : 1002 ≤ fuel) :
    ∃ rs w7, setupSteps d k fuel w = Except.ok (rs, w7) ∧ rs.length = 7 := by
  obtain ⟨r2, h2⟩ := powerUp_terminates d k fuel (reset d k w).2 (by omega)
  obtain ⟨r7, h7⟩ := calibrate_terminates d k fuel
    (setRegister d k.NAU7802_ADC 0x30
      (setSampleRate d k k.NAU7802_SPS_10
        (setGain d k k.NAU7802_GAIN_16
          (setLDO d k k.NAU7802_LDO_3V3 r2.2).2).2).2).2 hfuel
  unfold setupSteps
  simp only [h2, h7]
  exact ⟨_, _, rfl, rfl⟩

/-- C12: when the device answers the first or the second presence check,
`begin` (with fuel for the two bounded polling loops) runs the seven setup
steps in order, each on the world the previous one left and whatever the
earlier results were, and returns the conjunction of the seven results: true
if and only if every step returned true. -/
theorem begin_runs_all_steps (d : Device σ) (k : RegisterMap) (fuel : Nat) (w : World σ)
    (hfuel : 1002 ≤ fuel)
    (hcon : (isConnected d w).1 = true ∨ (isConnected d (isConnected d w).2).1 = true) :
    ∃ rs w7,
      setupSteps d k fuel
        (if (isConnected d w).1 = true then (isConnected d w).2
          else (isConnected d (isConnected d w).2).2) = Except.ok (rs, w7) ∧
      rs.length = 7 ∧
      begin d k fuel w = Except.ok (rs.all id, w7) ∧
      (rs.all id = true ↔ ∀ r ∈ rs, r = true) := by
  obtain ⟨rs, w7, hs, hlen⟩ := setupSteps_total d k fuel
    (if (isConnected d w).1 = true then (isConnected d w).2
      else (isConnected d (isConnected d w).2).2) hfuel
  refine ⟨rs, w7, hs, hlen, ?_, by simp⟩
  have hb := beginSetup_eq_setupSteps d k fuel _ _ _ hs
  unfold begin
  by_cases h1 : (isConnected d w).1 = true
  · simp only [h1, if_true] at hb
    simp only [h1, Bool.true_eq_false, if_false]
    exact hb
  · have h1f : (isConnected d w).1 = false := by simpa using h1
    have h2t : (isConnected d (isConnected d w).2).1 = true := by
      rcases hcon with h | h
      · exact absurd h h1
      · exact h
    simp only [h1f, Bool.false_eq_true, if_false] at hb
    simp only [h1f, h2t, if_true, Bool.true_eq_false, if_false]
    exact hb

/-- Witness of C12: the storing device answers the first presence check. -/
theorem begin_runs_all_steps_witness :
    ∃ rs w7,
      setupSteps memoryDevice nau7802Map 1002
        (if (isConnected memoryDevice (World.init sampleMemory)).1 = true
          then (isConnected memoryDevice (World.init sampleMemory)).2
          else (isConnected memoryDevice
            (isConnected memoryDevice (World.init sampleMemory)).2).2) = Except.ok (rs, w7) ∧
      rs.length = 7 ∧
      begin memoryDevice nau7802Map 1002 (World.init sampleMemory) = Except.ok (rs.all id, w7) ∧
      (rs.all id = true ↔ ∀ r ∈ rs, r = true) :=
  begin_runs_all_steps memoryDevice nau7802Map 1002 (World.init sampleMemory) (by decide)
    (Or.inl (by decide))

/-! ## C13: the result of `calibrate` -/

/-- The polling loop of `calibrate` when the start bit first reads clear on
poll number `j` (counting from 0): the loop is left by `break` there. -/
theorem calibrateWait_break (d : Device σ) (k : RegisterMap) :
    ∀ (j fuel counter : Nat) (w : World σ), counter + j ≤ 1001 → j + 1 ≤ fuel →
      (∀ i, i < j → (getBit d k.NAU7802_CTRL2_CALS k.NAU7802_CTRL2
        ((pollStep d k.NAU7802_CTRL2_CALS k.NAU7802_CTRL2)^[i] w)).1 = true) →
      (getBit d k.NAU7802_CTRL2_CALS k.NAU7802_CTRL2
        ((pollStep d k.NAU7802_CTRL2_CALS k.NAU7802_CTRL2)^[j] w)).1 = false →
      calibrateWait d k fuel counter w =
        Except.ok (true, (getBit d k.NAU7802_CTRL2_CALS k.NAU7802_CTRL2
          ((pollStep d k.NAU7802_CTRL2_CALS k.NAU7802_CTRL2)^[j] w)).2) := by
  intro j
  induction j with
  | zero =>
    intro fuel counter w _ hf _ hclear
    obtain ⟨m, rfl⟩ : ∃ m, fuel = m + 1 := ⟨fuel - 1, by omega⟩
    simp only [Function.iterate_zero, id_eq] at hclear ⊢
    rw [calibrateWait]
    simp only [hclear, if_true]
  | succ j ih =>
    intro fuel counter w hc hf hset hclear
    obtain ⟨m, rfl⟩ : ∃ m, fuel = m + 1 := ⟨fuel - 1, by omega⟩
    have h0 := hset 0 (by omega)
    simp only [Function.iterate_zero, id_eq] at h0
    have hcnt : ¬ counter > 1000 := by omega
    have hmod : (counter + 1) % 65536 = counter + 1 := Nat.mod_eq_of_lt (by omega)
    rw [calibrateWait]
    simp only [h0, Bool.true_eq_false, if_false, hcnt, hmod]
    rw [Function.iterate_succ_apply] at hclear ⊢
    refine ih m (counter + 1) _ (by omega) (by omega) ?_ hclear
    intro i hi
    have := hset (i + 1) (by omega)
    rw [Function.iterate_succ_apply] at this
    exact this

/-- C13: if the calibration-start bit reads set on the first `j` polls and
clear on the next one, within the 1002 polls the loop makes, `calibrate`
returns, and it returns true if and only if the calibration-error bit of the
same register, read right after that poll, is clear. -/
theorem calibrate_result (d : Device σ) (k : RegisterMap) (fuel j : Nat) (w : World σ)
    (hj : j ≤ 1001) (hfuel : j + 1 ≤ fuel)
    (hset : ∀ i, i < j → (getBit d k.NAU7802_CTRL2_CALS k.NAU7802_CTRL2
      ((pollStep d k.NAU7802_CTRL2_CALS k.NAU7802_CTRL2)^[i]
        (setBit d k.NAU7802_CTRL2_CALS k.NAU7802_CTRL2 w).2)).1 = true)
    (hclear : (getBit d k.NAU7802_CTRL2_CALS k.NAU7802_CTRL2
      ((pollStep d k.NAU7802_CTRL2_CALS k.NAU7802_CTRL2)^[j]
        (setBit d k.NAU7802_CTRL2_CALS k.NAU7802_CTRL2 w).2)).1 = false) :
    ∃ b w1, calibrate d k fuel w = Except.ok (b, w1) ∧
      (b = true ↔
        (getBit d k.NAU7802_CTRL2_CAL_ERROR k.NAU7802_CTRL2
          (getBit d k.NAU7802_CTRL2_CALS k.NAU7802_CTRL2
            ((pollStep d k.NAU7802_CTRL2_CALS k.NAU7802_CTRL2)^[j]
              (setBit d k.NAU7802_CTRL2_CALS k.NAU7802_CTRL2 w).2)).2).1 = false) := by
  have hw := calibrateWait_break d k j fuel 0 _ (by omega) hfuel hset hclear
  unfold calibrate
  simp only [hw]
  split
  · rename_i he
    exact ⟨true, _, rfl, by simp [he]⟩
  · rename_i he
    exact ⟨false, _, rfl, by simp [he]⟩

theorem getBit_zero (b a : Nat) (w : World Unit) : (getBit zeroDevice b a w).1 = false := by
  simp [getBit, getRegister, TwoWire.beginTransmission, TwoWire.write,
    TwoWire.endTransmission, TwoWire.requestFrom, TwoWire.available, TwoWire.read, zeroDevice,
    toUInt8]

/-- Witness of C13: on the device that reads back zero the start bit reads
clear on the first poll and the error bit is clear: `calibrate` returns true. -/
theorem calibrate_result_witness :
    ∃ b w1, calibrate zeroDevice nau7802Map 1 (World.init ()) = Except.ok (b, w1) ∧
      (b = true ↔
        (getBit zeroDevice nau7802Map.NAU7802_CTRL2_CAL_ERROR nau7802Map.NAU7802_CTRL2
          (getBit zeroDevice nau7802Map.NAU7802_CTRL2_CALS nau7802Map.NAU7802_CTRL2
            ((pollStep zeroDevice nau7802Map.NAU7802_CTRL2_CALS nau7802Map.NAU7802_CTRL2)^[0]
              (setBit zeroDevice nau7802Map.NAU7802_CTRL2_CALS nau7802Map.NAU7802_CTRL2
                (World.init ())).2)).2).1 = false) :=
  calibrate_result zeroDevice nau7802Map 1 0 (World.init ()) (by decide) (by decide)
    (fun i hi => absurd hi (Nat.not_lt_zero i)) (getBit_zero _ _ _)

/-! ## C14: `powerUp` -/

/-- The polling loop of `powerUp` when the power-ready bit first reads set on
poll number `j` (counting from 0): the loop is left by `break` there. -/
theorem powerUpWait_break (d : Device σ) (k : RegisterMap) :
    ∀ (j fuel counter : Nat) (w : World σ), counter + j ≤ 101 → j + 1 ≤ fuel →
      (∀ i, i < j → (getBit d k.NAU7802_PU_CTRL_PUR k.NAU7802_PU_CTRL
        ((pollStep d k.NAU7802_PU_CTRL_PUR k.NAU7802_PU_CTRL)^[i] w)).1 = false) →
      (getBit d k.NAU7802_PU_CTRL_PUR k.NAU7802_PU_CTRL
        ((pollStep d k.NAU7802_PU_CTRL_PUR k.NAU7802_PU_CTRL)^[j] w)).1 = true →
      powerUpWait d k fuel counter w =
        Except.ok (true, (getBit d k.NAU7802_PU_CTRL_PUR k.NAU7802_PU_CTRL
          ((pollStep d k.NAU7802_PU_CTRL_PUR k.NAU7802_PU_CTRL)^[j] w)).2) := by
  intro j
  induction j with
  | zero =>
    intro fuel counter w _ hf _ hready
    obtain ⟨m, rfl⟩ : ∃ m, fuel = m + 1 := ⟨fuel - 1, by omega⟩
    simp only [Function.iterate_zero, id_eq] at hready ⊢
    rw [powerUpWait]
    simp only [hready, if_true]
  | succ j ih =>
    intro fuel counter w hc hf hnot hready
    obtain ⟨m, rfl⟩ : ∃ m, fuel = m + 1 := ⟨fuel - 1, by omega⟩
    have h0 := hnot 0 (by omega)
    simp only [Function.iterate_zero, id_eq] at h0
    have hcnt : ¬ counter > 100 := by omega
    have hmod : (counter + 1) % 256 = counter + 1 := Nat.mod_eq_of_lt (by omega)
    rw [powerUpWait]
    simp only [h0, Bool.false_eq_true, if_false, hcnt, hmod]
    rw [Function.iterate_succ_apply] at hready ⊢
    refine ih m (counter + 1) _ (by omega) (by omega) ?_ hready
    intro i hi
    have := hnot (i + 1) (by omega)
    rw [Function.iterate_succ_apply] at this
    exact this

set_option maxRecDepth 100000 in
theorem setBit_twice_bits : ∀ c < 256, ∀ a < 8, ∀ b < 8,
    (((c % 256 ||| (1 <<< a)) % 256 % 256 ||| (1 <<< b)) % 256).testBit a = true ∧
    (((c % 256 ||| (1 <<< a)) % 256 % 256 ||| (1 <<< b)) % 256).testBit b = true := by
  decide

/-- The polling loop of `powerUp` when the power-ready bit reads clear on every
poll of the run: from counter value `101 - j` it makes exactly `j + 1` polls,
each followed by a delay, and returns false. -/
theorem powerUpWait_run (d : Device σ) (k : RegisterMap) :
    ∀ (j fuel counter : Nat) (w : World σ), counter + j = 101 →
      (∀ i, i ≤ j → (getBit d k.NAU7802_PU_CTRL_PUR k.NAU7802_PU_CTRL
        ((pollStep d k.NAU7802_PU_CTRL_PUR k.NAU7802_PU_CTRL)^[i] w)).1 = false) →
      (fuel < j + 1 → powerUpWait d k fuel counter w = Except.error Fault.outOfFuel) ∧
      (j + 1 ≤ fuel → powerUpWait d k fuel counter w =
        Except.ok (false, (pollStep d k.NAU7802_PU_CTRL_PUR k.NAU7802_PU_CTRL)^[j + 1] w)) := by
  intro j
  induction j with
  | zero =>
    intro fuel counter w hc hclear
    have h0 := hclear 0 (le_refl _)
    simp only [Function.iterate_zero, id_eq] at h0
    have hcnt : counter > 100 := by omega
    constructor
    · intro hf
      have : fuel = 0 := by omega
      subst this
      rfl
    · intro hf
      obtain ⟨m, rfl⟩ : ∃ m, fuel = m + 1 := ⟨fuel - 1, by omega⟩
      rw [powerUpWait]
      simp only [h0, Bool.false_eq_true, if_false, hcnt, if_true]
      rfl
  | succ j ih =>
    intro fuel counter w hc hclear
    have h0 := hclear 0 (by omega)
    simp only [Function.iterate_zero, id_eq] at h0
    have hcnt : ¬ counter > 100 := by omega
    have hmod : (counter + 1) % 256 = counter + 1 := Nat.mod_eq_of_lt (by omega)
    obtain ⟨ih1, ih2⟩ := ih (fuel - 1) (counter + 1)
      (pollStep d k.NAU7802_PU_CTRL_PUR k.NAU7802_PU_CTRL w) (by omega)
      (fun i hi => by
        have := hclear (i + 1) (by omega)
        rwa [Function.iterate_succ_apply] at this)
    cases fuel with
    | zero =>
      constructor
      · intro _; rfl
      · intro hf; omega
    | succ m =>
      have hstep : powerUpWait d k (m + 1) counter w =
          powerUpWait d k m (counter + 1)
            (pollStep d k.NAU7802_PU_CTRL_PUR k.NAU7802_PU_CTRL w) := by
        rw [powerUpWait]
        simp only [h0, Bool.false_eq_true, if_false, hcnt, hmod]
        rfl
      simp only [Nat.add_sub_cancel] at ih1 ih2
      rw [hstep]
      constructor
      · intro hf
        exact ih1 (by omega)
      · intro hf
        rw [ih2 (by omega)]
        rfl

/-- When the power-ready bit reads clear on each of the 102 polls `powerUp`
makes, it needs exactly 102 loop iterations and returns false in the world
left by 102 polls and delays. -/
theorem powerUp_run (d : Device σ) (k : RegisterMap) (fuel : Nat) (w : World σ)
    (hclear : ∀ i, i ≤ 101 → (getBit d k.NAU7802_PU_CTRL_PUR k.NAU7802_PU_CTRL
      ((pollStep d k.NAU7802_PU_CTRL_PUR k.NAU7802_PU_CTRL)^[i]
        (setBit d k.NAU7802_PU_CTRL_PUA k.NAU7802_PU_CTRL
          (setBit d k.NAU7802_PU_CTRL_PUD k.NAU7802_PU_CTRL w).2).2)).1 = false) :
    (fuel < 102 → powerUp d k fuel w = Except.error Fault.outOfFuel) ∧
    (102 ≤ fuel → powerUp d k fuel w =
      Except.ok (false, (pollStep d k.NAU7802_PU_CTRL_PUR k.NAU7802_PU_CTRL)^[102]
        (setBit d k.NAU7802_PU_CTRL_PUA k.NAU7802_PU_CTRL
          (setBit d k.NAU7802_PU_CTRL_PUD k.NAU7802_PU_CTRL w).2).2)) := by
  obtain ⟨h1, h2⟩ := powerUpWait_run d k 101 fuel 0
    (setBit d k.NAU7802_PU_CTRL_PUA k.NAU7802_PU_CTRL
      (setBit d k.NAU7802_PU_CTRL_PUD k.NAU7802_PU_CTRL w).2).2 (by omega) hclear
  constructor
  · intro h
    unfold powerUp
    exact h1 (by omega)
  · intro h
    unfold powerUp
    exact h2 (by omega)

/-- C14, as amended: `powerUp` sets the digital and the analog power-up bit of
`PU_CTRL` (on the storing device both bits are then set) and then polls the
power-ready bit. If that bit reads clear on every poll `powerUp` makes, it
terminates and returns false after exactly 102 polling iterations, with 102
delays; if the bit reads set on one of the first 102 polls, `powerUp` returns
true. -/
theorem powerUp_polls (d : Device σ) (k : RegisterMap) (w : World σ) (wm : World Memory) :
    ((∀ fuel, powerUp d k fuel w = powerUpWait d k fuel 0
        (setBit d k.NAU7802_PU_CTRL_PUA k.NAU7802_PU_CTRL
          (setBit d k.NAU7802_PU_CTRL_PUD k.NAU7802_PU_CTRL w).2).2) ∧
      (k.NAU7802_PU_CTRL < 256 → k.NAU7802_PU_CTRL_PUD < 8 → k.NAU7802_PU_CTRL_PUA < 8 →
        wm.dev.regs k.NAU7802_PU_CTRL < 256 →
        ((setBit memoryDevice k.NAU7802_PU_CTRL_PUA k.NAU7802_PU_CTRL
          (setBit memoryDevice k.NAU7802_PU_CTRL_PUD k.NAU7802_PU_CTRL wm).2).2.dev.regs
            k.NAU7802_PU_CTRL).testBit k.NAU7802_PU_CTRL_PUD = true ∧
        ((setBit memoryDevice k.NAU7802_PU_CTRL_PUA k.NAU7802_PU_CTRL
          (setBit memoryDevice k.NAU7802_PU_CTRL_PUD k.NAU7802_PU_CTRL wm).2).2.dev.regs
            k.NAU7802_PU_CTRL).testBit k.NAU7802_PU_CTRL_PUA = true)) ∧
    ((∀ i, i ≤ 101 → (getBit d k.NAU7802_PU_CTRL_PUR k.NAU7802_PU_CTRL
        ((pollStep d k.NAU7802_PU_CTRL_PUR k.NAU7802_PU_CTRL)^[i]
          (setBit d k.NAU7802_PU_CTRL_PUA k.NAU7802_PU_CTRL
            (setBit d k.NAU7802_PU_CTRL_PUD k.NAU7802_PU_CTRL w).2).2)).1 = false) →
      (∀ fuel, 102 ≤ fuel → ∃ w1, powerUp d k fuel w = Except.ok (false, w1) ∧
        delayCount w1.log = delayCount w.log + 102) ∧
      (∀ fuel, fuel < 102 → powerUp d k fuel w = Except.error Fault.outOfFuel)) ∧
    (∀ j fuel, j ≤ 101 → j + 1 ≤ fuel →
      (∀ i, i < j → (getBit d k.NAU7802_PU_CTRL_PUR k.NAU7802_PU_CTRL
        ((pollStep d k.NAU7802_PU_CTRL_PUR k.NAU7802_PU_CTRL)^[i]
          (setBit d k.NAU7802_PU_CTRL_PUA k.NAU7802_PU_CTRL
            (setBit d k.NAU7802_PU_CTRL_PUD k.NAU7802_PU_CTRL w).2).2)).1 = false) →
      (getBit d k.NAU7802_PU_CTRL_PUR k.NAU7802_PU_CTRL
        ((pollStep d k.NAU7802_PU_CTRL_PUR k.NAU7802_PU_CTRL)^[j]
          (setBit d k.NAU7802_PU_CTRL_PUA k.NAU7802_PU_CTRL
            (setBit d k.NAU7802_PU_CTRL_PUD k.NAU7802_PU_CTRL w).2).2)).1 = true →
      ∃ w1, powerUp d k fuel w = Except.ok (true, w1)) := by
  refine ⟨⟨fun _ => rfl, ?_⟩, ?_, ?_⟩
  · intro hP hD hA hc
    obtain ⟨b1, b2⟩ := setBit_twice_bits _ hc _ hD _ hA
    simp only [setBit_memory _ _ _ hP, Function.update_same]
    exact ⟨b1, b2⟩
  · intro hclear
    refine ⟨fun fuel h => ⟨_, (powerUp_run d k fuel w hclear).2 h, ?_⟩,
      fun fuel h => (powerUp_run d k fuel w hclear).1 h⟩
    rw [delayCount_pollStep_iterate, delayCount_setBit, delayCount_setBit]
  · intro j fuel hj hf hnot hready
    exact ⟨_, powerUpWait_break d k j fuel 0 _ (by omega) hf hnot hready⟩

theorem memory_powerUp_polls_clear (i : Nat) :
    (getBit memoryDevice nau7802Map.NAU7802_PU_CTRL_PUR nau7802Map.NAU7802_PU_CTRL
      ((pollStep memoryDevice nau7802Map.NAU7802_PU_CTRL_PUR nau7802Map.NAU7802_PU_CTRL)^[i]
        (setBit memoryDevice nau7802Map.NAU7802_PU_CTRL_PUA nau7802Map.NAU7802_PU_CTRL
          (setBit memoryDevice nau7802Map.NAU7802_PU_CTRL_PUD nau7802Map.NAU7802_PU_CTRL
            (World.init (readyMemory 0))).2).2)).1 = false := by
  rw [getBit_memory_poll _ _ _ _ (by decide)]
  decide

/-- Witness of C14: on the storing device the power-ready bit never comes up
(`powerUp` returns false after 102 delays, fuel for 101 iterations is not
enough); on the device whose power-ready bit comes up four register reads
after the start, the bit reads clear on polls 0 and 1 and set on poll 2, and
`powerUp` returns true. -/
theorem powerUp_polls_witness :
    ((∃ w1, powerUp memoryDevice nau7802Map 102 (World.init (readyMemory 0)) =
          Except.ok (false, w1) ∧
        delayCount w1.log = delayCount (World.init (readyMemory 0)).log + 102) ∧
      powerUp memoryDevice nau7802Map 101 (World.init (readyMemory 0)) =
        Except.error Fault.outOfFuel) ∧
    (∃ w1, powerUp poweringDevice nau7802Map 3 (World.init (4, readyMemory 0)) =
      Except.ok (true, w1)) :=
  ⟨⟨((powerUp_polls memoryDevice nau7802Map (World.init (readyMemory 0))
        (World.init sampleMemory)).2.1 (fun i _ => memory_powerUp_polls_clear i)).1 102
        (le_refl _),
      ((powerUp_polls memoryDevice nau7802Map (World.init (readyMemory 0))
        (World.init sampleMemory)).2.1 (fun i _ => memory_powerUp_polls_clear i)).2 101
        (by decide)⟩,
    (powerUp_polls poweringDevice nau7802Map (World.init (4, readyMemory 0))
      (World.init sampleMemory)).2.2 2 3 (by decide) (by decide)
      (fun i hi => by interval_cases i <;> decide) (by decide)⟩

/-- Counterexample to C14 as stated: on the storing device the power-ready bit
reads clear on every poll of the run, yet 100 polling iterations do not finish
`powerUp`, and when it returns false it has made 102 delays, not at most 100. -/
theorem powerUp_polls_counterexample :
    (∀ i, (getBit memoryDevice nau7802Map.NAU7802_PU_CTRL_PUR nau7802Map.NAU7802_PU_CTRL
      ((pollStep memoryDevice nau7802Map.NAU7802_PU_CTRL_PUR nau7802Map.NAU7802_PU_CTRL)^[i]
        (setBit memoryDevice nau7802Map.NAU7802_PU_CTRL_PUA nau7802Map.NAU7802_PU_CTRL
          (setBit memoryDevice nau7802Map.NAU7802_PU_CTRL_PUD nau7802Map.NAU7802_PU_CTRL
            (World.init (readyMemory 0))).2).2)).1 = false) ∧
    powerUp memoryDevice nau7802Map 100 (World.init (readyMemory 0)) =
      Except.error Fault.outOfFuel ∧
    ¬ (∃ w1, powerUp memoryDevice nau7802Map 102 (World.init (readyMemory 0)) =
        Except.ok (false, w1) ∧ delayCount w1.log ≤ 100) := by
  have hrun := powerUp_run memoryDevice nau7802Map
  refine ⟨memory_powerUp_polls_clear,
    (hrun 100 (World.init (readyMemory 0)) (fun i _ => memory_powerUp_polls_clear i)).1
      (by omega), ?_⟩
  rintro ⟨w1, e1, e2⟩
  have f1 := (hrun 102 (World.init (readyMemory 0))
    (fun i _ => memory_powerUp_polls_clear i)).2 (le_refl _)
  rw [f1] at e1
  injection e1 with e1
  injection e1 with _ e1
  subst e1
  rw [delayCount_pollStep_iterate, delayCount_setBit, delayCount_setBit] at e2
  have : delayCount (World.init (readyMemory 0)).log = 0 := rfl
  omega

/-! ## C16: the samples of `getAverage` -/

theorem sampleReading_succ (d : Device σ) (k : RegisterMap) (i : Nat) (w : World σ) :
    sampleReading d k (i + 1) w = sampleReading d k i (sampleStep d k w).2 := rfl

theorem sampleSum_le (d : Device σ) (k : RegisterMap) :
    ∀ (m : Nat) (w : World σ), (∀ i, i < m → sampleReading d k i w < 2 ^ 24) →
      sampleSum d k m w ≤ m * (2 ^ 24 - 1) := by
  intro m
  induction m with
  | zero => intro w _; simp [sampleSum]
  | succ m ih =>
    intro w h
    have h0 : (sampleStep d k w).1 < 2 ^ 24 := h 0 (by omega)
    have hrest := ih (sampleStep d k w).2 (fun i hi => by
      have := h (i + 1) (by omega)
      rwa [sampleReading_succ] at this)
    simp only [sampleSum]
    omega

theorem read_snd_log (w : World σ) : (TwoWire.read w).2.log = w.log := by
  unfold TwoWire.read; split <;> rfl

theorem readingCount_append (k : RegisterMap) (l1 l2 : List Event) :
    readingCount k (l1 ++ l2) = readingCount k l1 + readingCount k l2 := by
  simp [readingCount]

theorem readingCount_getReading (d : Device σ) (k : RegisterMap) (w : World σ) :
    readingCount k (getReading d k w).2.log = readingCount k w.log + 1 := by
  unfold getReading
  simp only [TwoWire.beginTransmission, TwoWire.write, TwoWire.endTransmission,
    TwoWire.requestFrom, TwoWire.available]
  split
  · simp [readingCount]
  · split
    · simp only [read_snd_log]
      simp [readingCount]
    · simp [readingCount]

theorem readingCount_available (d : Device σ) (k : RegisterMap) (w : World σ)
    (hne : k.NAU7802_PU_CTRL % 256 ≠ k.NAU7802_ADCO_B2 % 256) :
    readingCount k (available d k w).2.log = readingCount k w.log := by
  unfold available getBit getRegister
  simp only [TwoWire.beginTransmission, TwoWire.write, TwoWire.endTransmission,
    TwoWire.requestFrom, TwoWire.available, TwoWire.read]
  split
  · simp [readingCount, hne]
  · split
    · split <;> simp [readingCount, hne]
    · simp [readingCount, hne]

theorem readingCount_sampleWorld (d : Device σ) (k : RegisterMap)
    (hne : k.NAU7802_PU_CTRL % 256 ≠ k.NAU7802_ADCO_B2 % 256) :
    ∀ (m : Nat) (w : World σ),
      readingCount k (sampleWorld d k m w).log = readingCount k w.log + m := by
  intro m
  induction m with
  | zero => intro w; rfl
  | succ m ih =>
    intro w
    simp only [sampleWorld]
    rw [ih, sampleStep, readingCount_getReading, readingCount_available d k w hne]
    omega

/-- The loop of `getAverage` when a conversion is ready on every pass and the
timeout does not strike: from `samplesAquired = averageAmount - j` it makes
exactly `j + 1` passes, adds their readings to the total and leaves by `break`. -/
theorem getAverageLoop_samples (d : Device σ) (k : RegisterMap) (n st : Nat) (hn : n ≤ 255) :
    ∀ (j fuel total samples : Nat) (w : World σ), samples + j = n →
      (∀ i, i ≤ j → (available d k (sampleWorld d k i w)).1 = true) →
      (∀ i, i < j → (millis (sampleWorld d k (i + 1) w) + 2 ^ 32 - st) % 2 ^ 32 ≤ 1000) →
      (fuel < j + 1 →
        getAverageLoop d k n st fuel total samples w = Except.error Fault.outOfFuel) ∧
      (j + 1 ≤ fuel →
        getAverageLoop d k n st fuel total samples w =
          Except.ok (some ((total + sampleSum d k (j + 1) w) % 2 ^ 32),
            sampleWorld d k (j + 1) w)) := by
  intro j
  induction j with
  | zero =>
    intro fuel total samples w hs hready _
    have ha : (available d k w).1 = true := hready 0 (le_refl _)
    have hsn : samples = n := by omega
    constructor
    · intro hf
      have : fuel = 0 := by omega
      subst this
      rfl
    · intro hf
      obtain ⟨m, rfl⟩ : ∃ m, fuel = m + 1 := ⟨fuel - 1, by omega⟩
      rw [getAverageLoop]
      simp only [ha, hsn, if_true, sampleSum, sampleWorld, sampleStep, Nat.add_zero]
  | succ j ih =>
    intro fuel total samples w hs hready htime
    have ha : (available d k w).1 = true := hready 0 (by omega)
    have hsn : ¬ samples = n := by omega
    have ht : ¬ ((millis (getReading d k (available d k w).2).2 + 2 ^ 32 - st) % 2 ^ 32
        > 1000) := by
      have := htime 0 (by omega)
      simp only [sampleWorld, sampleStep] at this
      omega
    have hmod : (samples + 1) % 256 = samples + 1 := Nat.mod_eq_of_lt (by omega)
    obtain ⟨ih1, ih2⟩ := ih (fuel - 1) ((total + (sampleStep d k w).1) % 2 ^ 32) (samples + 1)
      (sampleStep d k w).2 (by omega)
      (fun i hi => hready (i + 1) (by omega))
      (fun i hi => htime (i + 1) (by omega))
    constructor
    · intro hf
      cases fuel with
      | zero => rfl
      | succ m =>
        rw [getAverageLoop]
        simp only [ha, hsn, ht, if_true, if_false, hmod]
        exact ih1 (by simp only [Nat.add_sub_cancel]; omega)
    · intro hf
      obtain ⟨m, rfl⟩ : ∃ m, fuel = m + 1 := ⟨fuel - 1, by omega⟩
      rw [getAverageLoop]
      simp only [ha, hsn, ht, if_true, if_false, hmod]
      have h2 := ih2 (by simp only [Nat.add_sub_cancel]; omega)
      simp only [Nat.add_sub_cancel] at h2
      simp only [sampleStep] at h2
      rw [h2]
      have e : sampleSum d k (j + 1 + 1) w =
          (sampleStep d k w).1 + sampleSum d k (j + 1) (sampleStep d k w).2 := rfl
      have e2 : sampleWorld d k (j + 1 + 1) w = sampleWorld d k (j + 1) (sampleStep d k w).2 :=
        rfl
      rw [e, e2]
      simp only [sampleStep]
      generalize sampleSum d k (j + 1) (getReading d k (available d k w).2).2 = x
      generalize (getReading d k (available d k w).2).1 = r
      have : ((total + r) % 2 ^ 32 + x) % 2 ^ 32 = (total + (r + x)) % 2 ^ 32 := by omega
      rw [this]

/-- C16: for `averageAmount = n` in 1..255, when a conversion is ready on every
pass and the timeout does not strike, `getAverage(n)` makes exactly `n + 1`
passes of its loop, each taking one reading (fuel for `n + 1` iterations is
needed and enough, and the log shows `n + 1` more readings). It returns the
32-bit total of those `n + 1` readings divided by `n`, rounded down; for
readings that are 24-bit values this is `S / n` rounded down, `S` being the sum
of the `n + 1` readings. -/
theorem getAverage_takes_one_more (d : Device σ) (k : RegisterMap) (n : Nat) (w : World σ)
    (hn1 : 1 ≤ n) (hn : n ≤ 255)
    (hready : ∀ i, i ≤ n → (available d k (sampleWorld d k i w)).1 = true)
    (htime : ∀ i, i < n →
      (millis (sampleWorld d k (i + 1) w) + 2 ^ 32 - millis w) % 2 ^ 32 ≤ 1000) :
    (∀ fuel, n + 1 ≤ fuel →
      getAverage d k n fuel w =
        Except.ok (sampleSum d k (n + 1) w % 2 ^ 32 / n, sampleWorld d k (n + 1) w)) ∧
    ((∀ i, i ≤ n → sampleReading d k i w < 2 ^ 24) →
      sampleSum d k (n + 1) w < 2 ^ 32 ∧
      ∀ fuel, n + 1 ≤ fuel →
        getAverage d k n fuel w =
          Except.ok (sampleSum d k (n + 1) w / n, sampleWorld d k (n + 1) w)) ∧
    (∀ fuel, fuel < n + 1 → getAverage d k n fuel w = Except.error Fault.outOfFuel) ∧
    (k.NAU7802_PU_CTRL % 256 ≠ k.NAU7802_ADCO_B2 % 256 →
      readingCount k (sampleWorld d k (n + 1) w).log = readingCount k w.log + (n + 1)) := by
  have hn0 : n ≠ 0 := by omega
  have hmain : ∀ fuel, n + 1 ≤ fuel →
      getAverage d k n fuel w =
        Except.ok (sampleSum d k (n + 1) w % 2 ^ 32 / n, sampleWorld d k (n + 1) w) := by
    intro fuel hf
    have h := (getAverageLoop_samples d k n (millis w) hn n fuel 0 0 w (by omega) hready
      htime).2 hf
    unfold getAverage
    simp only [h, hn0, if_false, Nat.zero_add]
  refine ⟨hmain, ?_, ?_, fun hne => readingCount_sampleWorld d k hne (n + 1) w⟩
  · intro h24
    have hbound : sampleSum d k (n + 1) w < 2 ^ 32 := by
      have h := sampleSum_le d k (n + 1) w (fun i hi => h24 i (by omega))
      have h2 : (n + 1) * (2 ^ 24 - 1) ≤ 256 * (2 ^ 24 - 1) :=
        Nat.mul_le_mul_right _ (by omega)
      omega
    refine ⟨hbound, fun fuel hf => ?_⟩
    rw [hmain fuel hf, Nat.mod_eq_of_lt hbound]
  · intro fuel hf
    have h := (getAverageLoop_samples d k n (millis w) hn n fuel 0 0 w (by omega) hready
      htime).1 hf
    unfold getAverage
    simp only [h]

theorem steady_sampleStep (k : RegisterMap) (r c : Nat) (w : World Memory)
    (hP : k.NAU7802_PU_CTRL < 256) (hA : k.NAU7802_ADCO_B2 < 256) (hr : r < 2 ^ 24)
    (hs : Steady k r c w) :
    (sampleStep memoryDevice k w).1 = r ∧ Steady k r c (sampleStep memoryDevice k w).2 :=
  getReading_steady k r c _ hA hr (available_steady k r c w hP hs).2

theorem steady_sampleWorld (k : RegisterMap) (r c : Nat)
    (hP : k.NAU7802_PU_CTRL < 256) (hA : k.NAU7802_ADCO_B2 < 256) (hr : r < 2 ^ 24) :
    ∀ (i : Nat) (w : World Memory), Steady k r c w →
      Steady k r c (sampleWorld memoryDevice k i w) := by
  intro i
  induction i with
  | zero => intro w hs; exact hs
  | succ i ih =>
    intro w hs
    exact ih _ (steady_sampleStep k r c w hP hA hr hs).2

/-- Witness of C16: eight-sample average on the steady storing device. -/
theorem getAverage_takes_one_more_witness :
    getAverage memoryDevice nau7802Map 8 9 (World.init (readyMemory 8000000)) =
      Except.ok (sampleSum memoryDevice nau7802Map 9 (World.init (readyMemory 8000000)) / 8,
        sampleWorld memoryDevice nau7802Map 9 (World.init (readyMemory 8000000))) ∧
    readingCount nau7802Map
        (sampleWorld memoryDevice nau7802Map 9 (World.init (readyMemory 8000000))).log =
      readingCount nau7802Map (World.init (readyMemory 8000000)).log + 9 := by
  have hs := readyMemory_steady 8000000
  have hw : ∀ i, Steady nau7802Map 8000000 0
      (sampleWorld memoryDevice nau7802Map i (World.init (readyMemory 8000000))) :=
    fun i => steady_sampleWorld nau7802Map 8000000 0 (by decide) (by decide) (by decide) i _ hs
  have h := getAverage_takes_one_more memoryDevice nau7802Map 8
    (World.init (readyMemory 8000000)) (by decide) (by decide)
    (fun i _ => (available_steady nau7802Map 8000000 0 _ (by decide) (hw i)).1)
    (fun i _ => by
      have hc : (sampleWorld memoryDevice nau7802Map (i + 1)
          (World.init (readyMemory 8000000))).clock = 0 := (hw (i + 1)).2.2.2.2
      have h0 : (World.init (readyMemory 8000000)).clock = 0 := rfl
      unfold millis
      rw [hc, h0]
      decide)
  have h24 : ∀ i, i ≤ 8 →
      sampleReading memoryDevice nau7802Map i (World.init (readyMemory 8000000)) < 2 ^ 24 :=
    fun i _ => by
      have := (steady_sampleStep nau7802Map 8000000 0 _ (by decide) (by decide) (by decide)
        (hw i)).1
      unfold sampleReading
      rw [this]
      decide
  exact ⟨(h.2.1 h24).2 9 (le_refl _), h.2.2.2 (by decide)⟩

/-! ## C17: `calculateCalibrationFactor` -/

/-- C17: whenever `getAverage(8)` returns the raw average `a`, not below the
zero offset `z`, `calculateCalibrationFactor(weight, n)` stores the `float`
quotient of `a - z` by `weight` as the calibration factor and keeps the zero
offset; the outcome, with the world and its log of readings, is the same for
every value of the `averageAmount` argument. -/
theorem calculateCalibrationFactor_stores (self : NAU7802) (d : Device σ) (k : RegisterMap)
    (weight : F32) (n fuel a : Nat) (w w1 : World σ)
    (havg : getAverage d k 8 fuel w = Except.ok (a, w1)) (hza : self._zeroOffset ≤ a) :
    calculateCalibrationFactor self d k weight n fuel w =
      Except.ok ({ _zeroOffset := self._zeroOffset,
                   _calibrationFactor := F32.div (F32.ofNat (a - self._zeroOffset)) weight },
        w1) ∧
    (∀ n2, calculateCalibrationFactor self d k weight n2 fuel w =
      calculateCalibrationFactor self d k weight n fuel w) := by
  have ha : a < 2 ^ 32 := getAverage_lt d k 8 fuel a w w1 havg
  have e : (a + 2 ^ 32 - self._zeroOffset) % 2 ^ 32 = a - self._zeroOffset := by omega
  refine ⟨?_, fun _ => rfl⟩
  simp only [calculateCalibrationFactor, havg, e, setCalibrationFactor]

/-- Witness of C17: every reading is 8000000, `getAverage(8)` returns 9000000;
with zero offset 8000000 and weight 1000.0 the stored factor is 1000.0. -/
theorem calculateCalibrationFactor_stores_witness :
    ∃ w1, calculateCalibrationFactor
        { _zeroOffset := 8000000, _calibrationFactor := F32.ofNat 1 }
        memoryDevice nau7802Map (F32.ofNat 1000) 3 9 (World.init (readyMemory 8000000)) =
      Except.ok ({ _zeroOffset := 8000000,
                   _calibrationFactor := F32.div (F32.ofNat (9000000 - 8000000))
                     (F32.ofNat 1000) }, w1) := by
  obtain ⟨w1, h⟩ := getAverage_steady nau7802Map 8000000 0 8 9 (World.init (readyMemory 8000000))
    (by decide) (by decide) (by decide) (by decide) (by decide) (readyMemory_steady _)
    (by decide)
  have h9 : (8 + 1) * 8000000 / 8 = 9000000 := by decide
  rw [h9] at h
  exact ⟨w1, (calculateCalibrationFactor_stores
    { _zeroOffset := 8000000, _calibrationFactor := F32.ofNat 1 }
    memoryDevice nau7802Map (F32.ofNat 1000) 3 9 9000000 _ w1 h (by decide)).1⟩

/-! ## C18: the accumulator of `getAverage` -/

/-- Invariant of the `getAverage` loop: with `samplesAquired ≤ averageAmount ≤ 255`
and a total of at most `samplesAquired` 24-bit readings, every later value of
the accumulator is at most `(averageAmount + 1) * (2^24 - 1)`, at most
`averageAmount + 1 - samplesAquired` readings are still added, and reducing the
total modulo 2^32 changes nothing. -/
theorem getAverageLoop_no_wrap (d : Device σ) (k : RegisterMap) (n st : Nat) (hn : n ≤ 255)
    (h24 : ∀ w, (getReading d k w).1 < 2 ^ 24) :
    ∀ (fuel total samples : Nat) (w : World σ), samples ≤ n →
      total ≤ samples * (2 ^ 24 - 1) →
      (∀ t, t ∈ runningTotals d k n st fuel total samples w → t ≤ (n + 1) * (2 ^ 24 - 1)) ∧
      (runningTotals d k n st fuel total samples w).length ≤ n + 1 - samples ∧
      getAverageLoop d k n st fuel total samples w =
        getAverageLoopWide d k n st fuel total samples w := by
  intro fuel
  induction fuel with
  | zero =>
    intro total samples w _ _
    simp [runningTotals, getAverageLoop, getAverageLoopWide]
  | succ m ih =>
    intro total samples w hs ht
    have hr := h24 (available d k w).2
    have hsum : total + (getReading d k (available d k w).2).1 ≤
        (samples + 1) * (2 ^ 24 - 1) := by
      have : (samples + 1) * (2 ^ 24 - 1) = samples * (2 ^ 24 - 1) + (2 ^ 24 - 1) := by ring
      omega
    have hsn1 : (samples + 1) * (2 ^ 24 - 1) ≤ (n + 1) * (2 ^ 24 - 1) :=
      Nat.mul_le_mul_right _ (by omega)
    have hn1 : (n + 1) * (2 ^ 24 - 1) ≤ 256 * (2 ^ 24 - 1) :=
      Nat.mul_le_mul_right _ (by omega)
    have hmod : (total + (getReading d k (available d k w).2).1) % 2 ^ 32 =
        total + (getReading d k (available d k w).2).1 := Nat.mod_eq_of_lt (by omega)
    rw [runningTotals, getAverageLoop, getAverageLoopWide]
    simp only [hmod]
    by_cases ha : (available d k w).1 = true
    · simp only [ha, if_true]
      by_cases hsn : samples = n
      · simp only [hsn, if_true]
        refine ⟨?_, by simp, trivial⟩
        intro t htm
        simp only [List.mem_singleton] at htm
        subst hsn
        omega
      · simp only [hsn, if_false]
        by_cases hto : (millis (getReading d k (available d k w).2).2 + 2 ^ 32 - st) % 2 ^ 32
            > 1000
        · simp only [hto, if_true]
          refine ⟨?_, ?_, trivial⟩
          · intro t htm
            simp only [List.mem_singleton] at htm
            omega
          · simp only [List.length_singleton]
            omega
        · simp only [hto, if_false]
          have hs1 : (samples + 1) % 256 = samples + 1 := Nat.mod_eq_of_lt (by omega)
          rw [hs1]
          obtain ⟨i1, i2, i3⟩ := ih (total + (getReading d k (available d k w).2).1)
            (samples + 1) (getReading d k (available d k w).2).2 (by omega) hsum
          refine ⟨?_, ?_, i3⟩
          · intro t htm
            rcases List.mem_cons.mp htm with h | h
            · omega
            · exact i1 t h
          · simp only [List.length_cons]
            omega
    · simp only [ha, Bool.false_eq_true, if_false]
      by_cases hto : (millis (available d k w).2 + 2 ^ 32 - st) % 2 ^ 32 > 1000
      · simp only [hto, if_true]
        exact ⟨by simp, by simp, trivial⟩
      · simp only [hto, if_false]
        exact ih total samples (available d k w).2 hs ht

/-- C18: for every `averageAmount` in 0..255 and readings below 2^24, every
value the running total takes in `getAverage` is at most `256 * (2^24 - 1)`,
which is below 2^32; at most `averageAmount + 1 ≤ 256` readings are summed, and
the 32-bit accumulator of the code agrees with an unbounded one: it never
wraps. -/
theorem getAverage_total_no_wrap (d : Device σ) (k : RegisterMap) (n st fuel : Nat)
    (w : World σ) (hn : n ≤ 255) (h24 : ∀ w, (getReading d k w).1 < 2 ^ 24) :
    (∀ t, t ∈ runningTotals d k n st fuel 0 0 w → t ≤ 256 * (2 ^ 24 - 1) ∧ t ≤ 2 ^ 32 - 1) ∧
    (runningTotals d k n st fuel 0 0 w).length ≤ n + 1 ∧ n + 1 ≤ 256 ∧
    256 * (2 ^ 24 - 1) < 2 ^ 32 ∧
    getAverageLoop d k n st fuel 0 0 w = getAverageLoopWide d k n st fuel 0 0 w := by
  obtain ⟨h1, h2, h3⟩ := getAverageLoop_no_wrap d k n st hn h24 fuel 0 0 w (by omega)
    (by omega)
  have hn1 : (n + 1) * (2 ^ 24 - 1) ≤ 256 * (2 ^ 24 - 1) :=
    Nat.mul_le_mul_right _ (by omega)
  refine ⟨?_, by omega, by omega, by norm_num, h3⟩
  intro t ht
  have := h1 t ht
  omega

theorem getReading_memory_lt (k : RegisterMap) (w : World Memory) :
    (getReading memoryDevice k w).1 < 2 ^ 24 := by
  have hst := getReading_status memoryDevice k w
  rw [memory_transmit_address] at hst
  have hrx := getReading_rx memoryDevice k w
  rw [memory_transmit_address, memory_request_three] at hrx
  simp only [List.take, List.map] at hrx
  have hst0 : (TwoWire.endTransmission memoryDevice
      (TwoWire.write k.NAU7802_ADCO_B2 (TwoWire.beginTransmission w))).1 = 0 := hst
  have hv : (getReading memoryDevice k w).1 =
      w.dev.regs (k.NAU7802_ADCO_B2 % 256) % 256 * 65536 +
        w.dev.regs (k.NAU7802_ADCO_B2 % 256 + 1) % 256 * 256 +
        w.dev.regs (k.NAU7802_ADCO_B2 % 256 + 2) % 256 := by
    unfold getReading
    simp only [hst0, ne_eq, not_true_eq_false, if_false]
    exact getReading_of_rx _ _ _ _ hrx (Nat.mod_lt _ (by norm_num))
      (Nat.mod_lt _ (by norm_num)) (Nat.mod_lt _ (by norm_num))
  rw [hv]
  have a := Nat.mod_lt (w.dev.regs (k.NAU7802_ADCO_B2 % 256)) (show 256 > 0 by norm_num)
  have b := Nat.mod_lt (w.dev.regs (k.NAU7802_ADCO_B2 % 256 + 1)) (show 256 > 0 by norm_num)
  have c := Nat.mod_lt (w.dev.regs (k.NAU7802_ADCO_B2 % 256 + 2)) (show 256 > 0 by norm_num)
  omega

/-- Witness of C18: the storing device always delivers three bytes. -/
theorem getAverage_total_no_wrap_witness :
    (∀ t, t ∈ runningTotals memoryDevice nau7802Map 255 0 300 0 0
        (World.init (readyMemory 16777215)) → t ≤ 256 * (2 ^ 24 - 1) ∧ t ≤ 2 ^ 32 - 1) ∧
    (runningTotals memoryDevice nau7802Map 255 0 300 0 0
      (World.init (readyMemory 16777215))).length ≤ 255 + 1 ∧ 255 + 1 ≤ 256 ∧
    256 * (2 ^ 24 - 1) < 2 ^ 32 ∧
    getAverageLoop memoryDevice nau7802Map 255 0 300 0 0 (World.init (readyMemory 16777215)) =
      getAverageLoopWide memoryDevice nau7802Map 255 0 300 0 0
        (World.init (readyMemory 16777215)) :=
  getAverage_total_no_wrap memoryDevice nau7802Map 255 0 300 (World.init (readyMemory 16777215))
    (by decide) (fun w => getReading_memory_lt nau7802Map w)

/-! ## C19: the divisor of `getAverage` -/

theorem getAverageLoop_error (d : Device σ) (k : RegisterMap) (n st : Nat) :
    ∀ (fuel total samples : Nat) (w : World σ) (e : Fault),
      getAverageLoop d k n st fuel total samples w = Except.error e → e = Fault.outOfFuel := by
  intro fuel
  induction fuel with
  | zero =>
    intro total samples w e h
    simp only [getAverageLoop] at h
    injection h with h
    exact h.symm
  | succ m ih =>
    intro total samples w e h
    rw [getAverageLoop] at h
    simp only [] at h
    split at h
    · split at h
      · exact absurd h (by simp)
      · split at h
        · exact absurd h (by simp)
        · exact ih _ _ _ _ h
    · split at h
      · exact absurd h (by simp)
      · exact ih _ _ _ _ h

/-- C19: `getAverage` divides by `averageAmount` itself. It reports a division
by zero only for `averageAmount = 0`; and with `averageAmount = 0` and a
conversion ready, its loop exits after one reading and the total is then
divided by zero. -/
theorem getAverage_divisor (d : Device σ) (k : RegisterMap) (n fuel : Nat) (w : World σ) :
    (getAverage d k n fuel w = Except.error Fault.divisionByZero → n = 0) ∧
    (n = 0 → (available d k w).1 = true → 1 ≤ fuel →
      getAverageLoop d k n (millis w) fuel 0 0 w =
        Except.ok (some ((getReading d k (available d k w).2).1 % 2 ^ 32),
          (getReading d k (available d k w).2).2) ∧
      getAverage d k n fuel w = Except.error Fault.divisionByZero) := by
  constructor
  · intro h
    unfold getAverage at h
    simp only [] at h
    split at h
    · rename_i e he
      injection h with h
      subst h
      have := getAverageLoop_error d k n _ _ _ _ _ _ he
      exact absurd this (by simp)
    · exact absurd h (by simp)
    · split at h
      · assumption
      · exact absurd h (by simp)
  · intro hn ha hf
    subst hn
    obtain ⟨m, rfl⟩ : ∃ m, fuel = m + 1 := ⟨fuel - 1, by omega⟩
    have hl : getAverageLoop d k 0 (millis w) (m + 1) 0 0 w =
        Except.ok (some ((getReading d k (available d k w).2).1 % 2 ^ 32),
          (getReading d k (available d k w).2).2) := by
      rw [getAverageLoop]
      simp only [ha, if_true, Nat.zero_add]
    refine ⟨hl, ?_⟩
    unfold getAverage
    simp only [hl, if_true]

/-- Witness of C19: `getAverage(0)` on the steady storing device. -/
theorem getAverage_divisor_witness :
    getAverage memoryDevice nau7802Map 0 1 (World.init (readyMemory 8000000)) =
      Except.error Fault.divisionByZero :=
  ((getAverage_divisor memoryDevice nau7802Map 0 1 (World.init (readyMemory 8000000))).2 rfl
    (available_steady nau7802Map 8000000 0 _ (by decide) (readyMemory_steady _)).1
    (le_refl _)).2

end NAU7802Driver
